import Mathlib

/-!
# Verification of the `image-tiler` tile-grid compositor

Shallow embedding of `src/lib.rs` (the `ImageBuffer` wasm component).

Modelling conventions:
* `u32`/`usize` values are modelled as `Nat`; `i32` values as `Int`.  Rust
  numeric casts that can wrap are modelled explicitly (`i32toU32`,
  `u32toI32`).  The claims under verification all carry the no-overflow
  side conditions under which `Nat`/`Int` arithmetic agrees with the
  machine arithmetic.
* `f32`/`f64` arithmetic is modelled by exact rational arithmetic over
  `ℚ`.  Every concrete input used in a theorem below makes the floating
  point computations of the source exact (all intermediate values are
  small dyadic rationals, or the compared quantities are far apart), so
  the rational model agrees with the source on those inputs.  The
  transcendental `sin` of the pattern generator is kept abstract as a
  function parameter `sinf : ℚ → ℚ`.
* The pixel vector `Vec<u8>` is modelled as a total function
  `data : Nat → Nat` together with its length `dataLen` (writes in the
  source are all guarded, or in bounds under the structure invariant).
* Decoding of image bytes and the resampling filter are external
  collaborators (the `image` crate); they are passed in as parameters
  `decode` / `resample`.  The dimension arithmetic of the external
  `DynamicImage::resize` is modelled from the image crate
  (`resize_dimensions`: fit-within ratio, round half away from zero,
  at least 1 pixel per axis, saturation at `u32::MAX`).
-/

/-- One RGBA pixel (four byte channels). -/
structure RGBA where
  r : Nat
  g : Nat
  b : Nat
  a : Nat
deriving DecidableEq

/-- Channel `b` of a pixel, in the R,G,B,A byte order of the buffer. -/
def byteOf (p : RGBA) (b : Nat) : Nat :=
  if b = 0 then p.r else if b = 1 then p.g else if b = 2 then p.b else p.a

/-- A decoded RGBA image: dimensions plus a pixel lookup (`get_pixel`). -/
structure Img where
  width : Nat
  height : Nat
  pixel : Nat → Nat → RGBA

/-- Rust struct `TileInfo`. -/
structure TileInfo where
  col : Nat
  row : Nat
  has_image : Bool
deriving DecidableEq

/-- Rust struct `ImageBuffer` (the tile canvas). -/
structure ImageBuffer where
  width : Nat
  height : Nat
  tile_width : Nat
  tile_height : Nat
  num_cols : Nat
  num_rows : Nat
  dataLen : Nat
  data : Nat → Nat
  loaded_tiles : List TileInfo
  background_r : Nat
  background_g : Nat
  background_b : Nat
  background_a : Nat

/-- Errors of the fallible operations (`JsValue` strings in the source):
`Invalid tile position (c, r). Grid is WxH` and `Failed to decode image`. -/
inductive LoadError where
  | invalidTilePosition (col row num_cols num_rows : Nat)
  | decodeError
deriving DecidableEq

/-- `ImageBuffer::new`: derived dimensions, zeroed buffer, empty occupancy,
white background. -/
def ImageBuffer.new (tile_width tile_height num_cols num_rows : Nat) : ImageBuffer :=
  let width := tile_width * num_cols
  let height := tile_height * num_rows
  { width := width
    height := height
    tile_width := tile_width
    tile_height := tile_height
    num_cols := num_cols
    num_rows := num_rows
    dataLen := width * height * 4
    data := fun _ => 0
    loaded_tiles := []
    background_r := 255
    background_g := 255
    background_b := 255
    background_a := 255 }

/-- `ImageBuffer::set_background_color`. -/
def ImageBuffer.set_background_color (c : ImageBuffer) (r g b a : Nat) : ImageBuffer :=
  { c with background_r := r, background_g := g, background_b := b, background_a := a }

/-- The current background color as one pixel. -/
def bgColor (c : ImageBuffer) : RGBA :=
  ⟨c.background_r, c.background_g, c.background_b, c.background_a⟩

/-- `ImageBuffer::is_tile_loaded`. -/
def ImageBuffer.is_tile_loaded (c : ImageBuffer) (col row : Nat) : Bool :=
  c.loaded_tiles.any fun tile => tile.col == col && tile.row == row && tile.has_image

/-- `ImageBuffer::is_pixel_in_loaded_tile`. -/
def ImageBuffer.is_pixel_in_loaded_tile (c : ImageBuffer) (x y : Nat) : Bool :=
  c.loaded_tiles.any fun tile_info =>
    tile_info.has_image &&
      (decide (tile_info.col * c.tile_width ≤ x) &&
       decide (x < tile_info.col * c.tile_width + c.tile_width) &&
       decide (tile_info.row * c.tile_height ≤ y) &&
       decide (y < tile_info.row * c.tile_height + c.tile_height))

/-- Point update of the byte store. -/
def upd (d : Nat → Nat) (i v : Nat) : Nat → Nat :=
  fun j => if j = i then v else d j

/-- The four consecutive byte stores `data[i..i+3] = (r,g,b,a)`. -/
def writeRGBA (d : Nat → Nat) (i : Nat) (p : RGBA) : Nat → Nat :=
  upd (upd (upd (upd d i p.r) (i + 1) p.g) (i + 2) p.b) (i + 3) p.a

/-- Row-major traversal order of `for y in 0..h { for x in 0..w }`,
as the list of visited `(x, y)` pairs. -/
def rowMajor (w h : Nat) : List (Nat × Nat) :=
  (List.range h).flatMap fun y => (List.range w).map fun x => (x, y)

/-- Generic write loop shared by the compositing loops of the source:
visit the pairs in order, and where the guard holds write the four bytes
of `color x y` at `idx x y`. -/
def writeLoop (gd : Nat → Nat → Bool) (idx : Nat → Nat → Nat) (color : Nat → Nat → RGBA)
    (P : List (Nat × Nat)) (d : Nat → Nat) : Nat → Nat :=
  P.foldl (fun d p => if gd p.1 p.2 then writeRGBA d (idx p.1 p.2) (color p.1 p.2) else d) d

/-- The per-tile write loop of `load_image_from_bytes_with_scale{_and_offset}`
and `clear_tile`: for every `(x, y)` of the tile's local coordinate space,
guarded by `dst_index + 3 < data.len()`, overwrite the destination pixel. -/
def tileWrite (c : ImageBuffer) (tile_start_x tile_start_y : Nat)
    (color : Nat → Nat → RGBA) : Nat → Nat :=
  writeLoop
    (fun x y => decide (((tile_start_y + y) * c.width + (tile_start_x + x)) * 4 + 3 < c.dataLen))
    (fun x y => ((tile_start_y + y) * c.width + (tile_start_x + x)) * 4)
    color (rowMajor c.tile_width c.tile_height) c.data

/-- `u32::MAX`. -/
def u32MAX : Nat := 4294967295

/-- Rust `expr as u32` applied to a nonnegative-or-negative `f32` value
(modelled as `ℚ`): truncation toward zero, saturating at `0` and
`u32::MAX`. -/
def f32toU32 (q : ℚ) : Nat := min ⌊q⌋.toNat u32MAX

/-- Rust `expr as u32` applied to an `i32` value: two's-complement wrap. -/
def i32toU32 (z : Int) : Nat := (z % 4294967296).toNat

/-- Rust `expr as i32` applied to a `u32` value: two's-complement wrap. -/
def u32toI32 (n : Nat) : Int :=
  if n < 2147483648 then (n : Int) else (n : Int) - 4294967296

/-- Modelled from the external image crate (the out-of-scope resize
collaborator of the spec): `image::math::utils::resize_dimensions
(width, height, nwidth, nheight, fill = false)`.  Fit-within ratio in
`f64` (modelled as `ℚ`), round half away from zero, at least one pixel
per axis, saturation at `u32::MAX`. -/
def resize_dimensions (width height nwidth nheight : Nat) : Nat × Nat :=
  let wratio : ℚ := (nwidth : ℚ) / (width : ℚ)
  let hratio : ℚ := (nheight : ℚ) / (height : ℚ)
  let ratio := min wratio hratio
  let nw := max (round ((width : ℚ) * ratio)).toNat 1
  let nh := max (round ((height : ℚ) * ratio)).toNat 1
  if u32MAX < nw then
    let ratio2 : ℚ := (u32MAX : ℚ) / (width : ℚ)
    (u32MAX, max (round ((height : ℚ) * ratio2)).toNat 1)
  else if u32MAX < nh then
    let ratio2 : ℚ := (u32MAX : ℚ) / (height : ℚ)
    (max (round ((width : ℚ) * ratio2)).toNat 1, u32MAX)
  else (nw, nh)

/-- Modelled from the external image crate: `DynamicImage::resize`
(aspect-preserving, returns the image unchanged when the target equals
the current dimensions).  The resampled pixel grid is abstracted by the
`resample` parameter; only the dimension arithmetic is concrete. -/
def imageResize (resample : Img → Nat → Nat → Nat → Nat → RGBA) (img : Img)
    (nwidth nheight : Nat) : Img :=
  if nwidth = img.width ∧ nheight = img.height then img
  else
    let d := resize_dimensions img.width img.height nwidth nheight
    { width := d.1, height := d.2, pixel := resample img d.1 d.2 }

/-- `resize_preserve_aspect_ratio` (src/lib.rs): `f32` fit computation
followed by the external `resize`. -/
def resize_preserve_aspect_ratio (resample : Img → Nat → Nat → Nat → Nat → RGBA)
    (img : Img) (target_width target_height : Nat) : Img :=
  let scale_x : ℚ := (target_width : ℚ) / (img.width : ℚ)
  let scale_y : ℚ := (target_height : ℚ) / (img.height : ℚ)
  let scale := min scale_x scale_y
  let new_width := f32toU32 ((img.width : ℚ) * scale)
  let new_height := f32toU32 ((img.height : ℚ) * scale)
  imageResize resample img new_width new_height

/-- The per-pixel color of the compositing loops: `src = (x, y)` shifted
by the destination and source offsets (both `u32` values reinterpreted
as `i32` by the source); copy the image pixel when `src` is inside the
resampled image, else the background. -/
def compositeColor (actual_width actual_height : Nat) (pix : Nat → Nat → RGBA)
    (src_offset_x src_offset_y dst_offset_x dst_offset_y : Nat) (bg : RGBA)
    (x y : Nat) : RGBA :=
  let src_x : Int := (x : Int) - u32toI32 dst_offset_x + u32toI32 src_offset_x
  let src_y : Int := (y : Int) - u32toI32 dst_offset_y + u32toI32 src_offset_y
  if 0 ≤ src_x ∧ 0 ≤ src_y ∧ src_x < (actual_width : Int) ∧ src_y < (actual_height : Int) then
    pix src_x.toNat src_y.toNat
  else bg

/-- The occupancy update shared by both load functions:
`retain(|t| t.col != col || t.row != row)` then `push` the new record. -/
def upsertTile (l : List TileInfo) (col row : Nat) : List TileInfo :=
  (l.filter fun tile => !(tile.col == col && tile.row == row)) ++ [⟨col, row, true⟩]

/-- `ImageBuffer::load_image_from_bytes_with_scale`.  The external codec
is the parameter `decode` (`image::load_from_memory` followed by
`to_rgba8`); the external resampler is `resample`.  Returns the result
paired with the canvas after the call (the source mutates `self` and
returns early, before any mutation, on every error path). -/
def load_image_from_bytes_with_scale (decode : List Nat → Option Img)
    (resample : Img → Nat → Nat → Nat → Nat → RGBA) (c : ImageBuffer)
    (image_data : List Nat) (col row : Nat) (scale : ℚ) :
    Except LoadError Unit × ImageBuffer :=
  if c.num_cols ≤ col ∨ c.num_rows ≤ row then
    (Except.error (LoadError.invalidTilePosition col row c.num_cols c.num_rows), c)
  else
    match decode image_data with
    | none => (Except.error LoadError.decodeError, c)
    | some img =>
      let scaled_width := f32toU32 ((c.tile_width : ℚ) * scale)
      let scaled_height := f32toU32 ((c.tile_height : ℚ) * scale)
      let rgba_img := resize_preserve_aspect_ratio resample img scaled_width scaled_height
      let actual_width := rgba_img.width
      let actual_height := rgba_img.height
      let tile_start_x := col * c.tile_width
      let tile_start_y := row * c.tile_height
      let offs : Nat × Nat × Nat × Nat :=
        if 1 ≤ scale then
          ((actual_width - c.tile_width) / 2, (actual_height - c.tile_height) / 2, 0, 0)
        else
          (0, 0, (c.tile_width - actual_width) / 2, (c.tile_height - actual_height) / 2)
      (Except.ok (),
        { c with
          loaded_tiles := upsertTile c.loaded_tiles col row
          data := tileWrite c tile_start_x tile_start_y
            (compositeColor actual_width actual_height rgba_img.pixel
              offs.1 offs.2.1 offs.2.2.1 offs.2.2.2 (bgColor c)) })

/-- `ImageBuffer::load_image_from_bytes` (scale 1.0). -/
def load_image_from_bytes (decode : List Nat → Option Img)
    (resample : Img → Nat → Nat → Nat → Nat → RGBA) (c : ImageBuffer)
    (image_data : List Nat) (col row : Nat) : Except LoadError Unit × ImageBuffer :=
  load_image_from_bytes_with_scale decode resample c image_data col row 1

/-- `ImageBuffer::load_image_from_bytes_with_scale_and_offset`.  The
clamped destination offsets and the cropped source offsets are `i32`
computations cast to `u32` by the source (`i32toU32`). -/
def load_image_from_bytes_with_scale_and_offset (decode : List Nat → Option Img)
    (resample : Img → Nat → Nat → Nat → Nat → RGBA) (c : ImageBuffer)
    (image_data : List Nat) (col row : Nat) (scale : ℚ) (offset_x offset_y : Int) :
    Except LoadError Unit × ImageBuffer :=
  if c.num_cols ≤ col ∨ c.num_rows ≤ row then
    (Except.error (LoadError.invalidTilePosition col row c.num_cols c.num_rows), c)
  else
    match decode image_data with
    | none => (Except.error LoadError.decodeError, c)
    | some img =>
      let scaled_width := f32toU32 ((c.tile_width : ℚ) * scale)
      let scaled_height := f32toU32 ((c.tile_height : ℚ) * scale)
      let rgba_img := resize_preserve_aspect_ratio resample img scaled_width scaled_height
      let actual_width := rgba_img.width
      let actual_height := rgba_img.height
      let tile_start_x := col * c.tile_width
      let tile_start_y := row * c.tile_height
      let base_dst_x := if actual_width ≤ c.tile_width then (c.tile_width - actual_width) / 2 else 0
      let base_dst_y := if actual_height ≤ c.tile_height then (c.tile_height - actual_height) / 2 else 0
      let dst_offset_x := i32toU32 (min (max ((base_dst_x : Int) + offset_x) (-(actual_width : Int))) (c.tile_width : Int))
      let dst_offset_y := i32toU32 (min (max ((base_dst_y : Int) + offset_y) (-(actual_height : Int))) (c.tile_height : Int))
      let src_offset_x :=
        if c.tile_width < actual_width then
          i32toU32 (min (max ((((actual_width - c.tile_width) / 2 : Nat) : Int) - offset_x) 0)
            (((actual_width - c.tile_width : Nat) : Int)))
        else 0
      let src_offset_y :=
        if c.tile_height < actual_height then
          i32toU32 (min (max ((((actual_height - c.tile_height) / 2 : Nat) : Int) - offset_y) 0)
            (((actual_height - c.tile_height : Nat) : Int)))
        else 0
      (Except.ok (),
        { c with
          loaded_tiles := upsertTile c.loaded_tiles col row
          data := tileWrite c tile_start_x tile_start_y
            (compositeColor actual_width actual_height rgba_img.pixel
              src_offset_x src_offset_y dst_offset_x dst_offset_y (bgColor c)) })

/-- `ImageBuffer::clear_tile`. -/
def clear_tile (c : ImageBuffer) (col row : Nat) : Except LoadError Unit × ImageBuffer :=
  if c.num_cols ≤ col ∨ c.num_rows ≤ row then
    (Except.error (LoadError.invalidTilePosition col row c.num_cols c.num_rows), c)
  else
    (Except.ok (),
      { c with
        loaded_tiles := c.loaded_tiles.filter fun tile => !(tile.col == col && tile.row == row)
        data := tileWrite c (col * c.tile_width) (row * c.tile_height) (fun _ _ => bgColor c) })

/-- Rust `expr as u8` applied to an `f32` value (modelled as `ℚ`):
truncation toward zero, saturating at `0` and `255`. -/
def f32toU8 (q : ℚ) : Nat := (min (max ⌊q⌋ 0) 255).toNat

/-- The per-pixel pattern color of `generate_pattern`; `sinf` abstracts
the `f32` sine. -/
def patternColor (sinf : ℚ → ℚ) (frame x y : Nat) : RGBA :=
  { r := f32toU8 (sinf ((x : ℚ) + (frame : ℚ) * (1 / 10)) * 127 + 128)
    g := f32toU8 (sinf ((y : ℚ) + (frame : ℚ) * (15 / 100)) * 127 + 128)
    b := f32toU8 (sinf (((x : ℚ) + (y : ℚ)) + (frame : ℚ) * (2 / 10)) * 127 + 128)
    a := 255 }

/-- `ImageBuffer::generate_pattern`: every buffer pixel not inside a
loaded tile is overwritten at `index = (y*width + x)*4` (unguarded
indexing in the source, in bounds under the structure invariant). -/
def generate_pattern (c : ImageBuffer) (sinf : ℚ → ℚ) (frame : Nat) : ImageBuffer :=
  { c with
    data := writeLoop
      (fun x y => !(c.is_pixel_in_loaded_tile x y))
      (fun x y => (y * c.width + x) * 4)
      (fun x y => patternColor sinf frame x y)
      (rowMajor c.width c.height) c.data }

/-- The per-pixel color function used by `load_image_from_bytes_with_scale`
after a successful decode (its resize and offset computation, factored
out verbatim for reuse in theorem statements). -/
def withScaleColor (resample : Img → Nat → Nat → Nat → Nat → RGBA) (c : ImageBuffer)
    (img : Img) (scale : ℚ) : Nat → Nat → RGBA :=
  let scaled_width := f32toU32 ((c.tile_width : ℚ) * scale)
  let scaled_height := f32toU32 ((c.tile_height : ℚ) * scale)
  let rgba_img := resize_preserve_aspect_ratio resample img scaled_width scaled_height
  let actual_width := rgba_img.width
  let actual_height := rgba_img.height
  let offs : Nat × Nat × Nat × Nat :=
    if 1 ≤ scale then
      ((actual_width - c.tile_width) / 2, (actual_height - c.tile_height) / 2, 0, 0)
    else
      (0, 0, (c.tile_width - actual_width) / 2, (c.tile_height - actual_height) / 2)
  compositeColor actual_width actual_height rgba_img.pixel
    offs.1 offs.2.1 offs.2.2.1 offs.2.2.2 (bgColor c)

/-- The per-pixel color function used by
`load_image_from_bytes_with_scale_and_offset` after a successful decode
(its resize, clamp and crop computation, factored out verbatim for reuse
in theorem statements). -/
def withOffsetColor (resample : Img → Nat → Nat → Nat → Nat → RGBA) (c : ImageBuffer)
    (img : Img) (scale : ℚ) (offset_x offset_y : Int) : Nat → Nat → RGBA :=
  let scaled_width := f32toU32 ((c.tile_width : ℚ) * scale)
  let scaled_height := f32toU32 ((c.tile_height : ℚ) * scale)
  let rgba_img := resize_preserve_aspect_ratio resample img scaled_width scaled_height
  let actual_width := rgba_img.width
  let actual_height := rgba_img.height
  let base_dst_x := if actual_width ≤ c.tile_width then (c.tile_width - actual_width) / 2 else 0
  let base_dst_y := if actual_height ≤ c.tile_height then (c.tile_height - actual_height) / 2 else 0
  let dst_offset_x := i32toU32 (min (max ((base_dst_x : Int) + offset_x) (-(actual_width : Int))) (c.tile_width : Int))
  let dst_offset_y := i32toU32 (min (max ((base_dst_y : Int) + offset_y) (-(actual_height : Int))) (c.tile_height : Int))
  let src_offset_x :=
    if c.tile_width < actual_width then
      i32toU32 (min (max ((((actual_width - c.tile_width) / 2 : Nat) : Int) - offset_x) 0)
        (((actual_width - c.tile_width : Nat) : Int)))
    else 0
  let src_offset_y :=
    if c.tile_height < actual_height then
      i32toU32 (min (max ((((actual_height - c.tile_height) / 2 : Nat) : Int) - offset_y) 0)
        (((actual_height - c.tile_height : Nat) : Int)))
    else 0
  compositeColor actual_width actual_height rgba_img.pixel
    src_offset_x src_offset_y dst_offset_x dst_offset_y (bgColor c)

/-- The structure invariant established by `ImageBuffer::new` and
preserved by every operation: derived dimensions and buffer length are
consistent with the grid descriptor. -/
def Wf (c : ImageBuffer) : Prop :=
  c.width = c.tile_width * c.num_cols ∧ c.height = c.tile_height * c.num_rows ∧
    c.dataLen = c.width * c.height * 4

/-- Concrete pixel grid fixture for counterexamples. -/
def pixK : Nat → Nat → RGBA := fun _ _ => ⟨1, 2, 3, 4⟩

/-- Concrete resampler fixture for counterexamples: every resampled pixel
is the constant `(9,9,9,9)`, distinguishable from every background used. -/
def resampleK : Img → Nat → Nat → Nat → Nat → RGBA := fun _ _ _ _ _ => ⟨9, 9, 9, 9⟩

/-- A decoded 8x4 image fixture. -/
def img84 : Img := ⟨8, 4, pixK⟩

/-- A decoded 2x2 image fixture. -/
def img22 : Img := ⟨2, 2, pixK⟩

/-- A decoded 3x2 image fixture. -/
def img32 : Img := ⟨3, 2, pixK⟩

/-- A decoder fixture that decodes any bytes to the 8x4 image. -/
def dec84 : List Nat → Option Img := fun _ => some img84

/-- A decoder fixture that decodes any bytes to the 2x2 image. -/
def dec22 : List Nat → Option Img := fun _ => some img22

/-- A decoded 200x100 image fixture. -/
def img200 : Img := ⟨200, 100, pixK⟩

/-- A decoder fixture that decodes any bytes to the 200x100 image. -/
def dec200 : List Nat → Option Img := fun _ => some img200

section WriteLoopLemmas

variable {gd : Nat → Nat → Bool} {idx : Nat → Nat → Nat} {color : Nat → Nat → RGBA}

theorem upd_apply (d : Nat → Nat) (i v j : Nat) : upd d i v j = if j = i then v else d j := rfl

theorem writeRGBA_apply_ne (d : Nat → Nat) (i : Nat) (p : RGBA) (j : Nat)
    (h : j < i ∨ i + 3 < j) : writeRGBA d i p j = d j := by
  unfold writeRGBA
  rw [upd_apply, if_neg (by omega), upd_apply, if_neg (by omega),
    upd_apply, if_neg (by omega), upd_apply, if_neg (by omega)]

theorem writeRGBA_apply_byte (d : Nat → Nat) (i : Nat) (p : RGBA) (b : Nat) (hb : b < 4) :
    writeRGBA d i p (i + b) = byteOf p b := by
  unfold writeRGBA byteOf
  match b, hb with
  | 0, _ =>
    rw [upd_apply, if_neg (by omega), upd_apply, if_neg (by omega),
      upd_apply, if_neg (by omega), upd_apply, if_pos (by omega)]
    simp
  | 1, _ =>
    rw [upd_apply, if_neg (by omega), upd_apply, if_neg (by omega),
      upd_apply, if_pos (by omega)]
    simp
  | 2, _ =>
    rw [upd_apply, if_neg (by omega), upd_apply, if_pos (by omega)]
    simp
  | 3, _ =>
    rw [upd_apply, if_pos (by omega)]
    simp

theorem writeLoop_apply_notouch (P : List (Nat × Nat)) (d : Nat → Nat) (j : Nat)
    (h : ∀ p ∈ P, gd p.1 p.2 = true → j < idx p.1 p.2 ∨ idx p.1 p.2 + 3 < j) :
    writeLoop gd idx color P d j = d j := by
  induction P generalizing d with
  | nil => rfl
  | cons a P ih =>
    have hstep :
        (if gd a.1 a.2 then writeRGBA d (idx a.1 a.2) (color a.1 a.2) else d) j = d j := by
      by_cases hg : gd a.1 a.2 = true
      · rw [if_pos hg]
        exact writeRGBA_apply_ne _ _ _ _ (h a (List.mem_cons_self a P) hg)
      · rw [if_neg hg]
    calc writeLoop gd idx color (a :: P) d j
        = writeLoop gd idx color P
            (if gd a.1 a.2 then writeRGBA d (idx a.1 a.2) (color a.1 a.2) else d) j := rfl
      _ = (if gd a.1 a.2 then writeRGBA d (idx a.1 a.2) (color a.1 a.2) else d) j :=
          ih _ (fun p hp => h p (List.mem_cons_of_mem a hp))
      _ = d j := hstep

theorem writeLoop_apply_touch (P : List (Nat × Nat)) (d : Nat → Nat) (x y b : Nat)
    (hb : b < 4) (hmem : (x, y) ∈ P) (hg : gd x y = true)
    (huniq : ∀ p ∈ P, gd p.1 p.2 = true →
      idx p.1 p.2 ≤ idx x y + b → idx x y + b ≤ idx p.1 p.2 + 3 → p = (x, y)) :
    writeLoop gd idx color P d (idx x y + b) = byteOf (color x y) b := by
  induction P generalizing d with
  | nil => cases hmem
  | cons a P ih =>
    have hrun : writeLoop gd idx color (a :: P) d =
        writeLoop gd idx color P
          (if gd a.1 a.2 then writeRGBA d (idx a.1 a.2) (color a.1 a.2) else d) := rfl
    rw [hrun]
    by_cases hmem' : (x, y) ∈ P
    · exact ih _ hmem' (fun p hp => huniq p (List.mem_cons_of_mem a hp))
    · have ha : a = (x, y) := by
        rcases List.mem_cons.mp hmem with h | h
        · exact h.symm
        · exact absurd h hmem'
      subst ha
      have hnot : ∀ p ∈ P, gd p.1 p.2 = true →
          idx x y + b < idx p.1 p.2 ∨ idx p.1 p.2 + 3 < idx x y + b := by
        intro p hp hgp
        by_contra hcon
        push_neg at hcon
        have := huniq p (List.mem_cons_of_mem _ hp) hgp hcon.1 hcon.2
        exact hmem' (this ▸ hp)
      rw [writeLoop_apply_notouch P _ _ hnot, if_pos hg]
      exact writeRGBA_apply_byte _ _ _ _ hb

theorem mem_rowMajor {w h x y : Nat} : (x, y) ∈ rowMajor w h ↔ x < w ∧ y < h := by
  unfold rowMajor
  simp only [List.mem_flatMap, List.mem_map, List.mem_range, Prod.mk.injEq]
  constructor
  · rintro ⟨y', hy', x', hx', hx, hy⟩
    exact ⟨hx ▸ hx', hy ▸ hy'⟩
  · rintro ⟨hx, hy⟩
    exact ⟨y, hy, x, hx, rfl, rfl⟩

end WriteLoopLemmas

section IndexLemmas

/-- Uniqueness of the row-major pixel decomposition `a * W + r`, `r < W`. -/
theorem mul_add_inj {W a a' r r' : Nat} (hr : r < W) (hr' : r' < W)
    (h : a * W + r = a' * W + r') : a = a' ∧ r = r' := by
  have hW : 0 < W := by omega
  have h1 : (a * W + r) / W = a := by
    rw [Nat.mul_comm a W, Nat.mul_add_div hW, Nat.div_eq_of_lt hr, Nat.add_zero]
  have h2 : (a' * W + r') / W = a' := by
    rw [Nat.mul_comm a' W, Nat.mul_add_div hW, Nat.div_eq_of_lt hr', Nat.add_zero]
  have ha : a = a' := by
    calc a = (a * W + r) / W := h1.symm
      _ = (a' * W + r') / W := by rw [h]
      _ = a' := h2
  subst ha
  exact ⟨rfl, by omega⟩

/-- An in-tile x coordinate lies inside the buffer width. -/
theorem px_lt_width {c : ImageBuffer} {col x : Nat} (hwf : Wf c)
    (hcol : col < c.num_cols) (hx : x < c.tile_width) :
    col * c.tile_width + x < c.width := by
  have h2 : (col + 1) * c.tile_width ≤ c.num_cols * c.tile_width :=
    Nat.mul_le_mul_right _ hcol
  rw [Nat.succ_mul] at h2
  rw [hwf.1, Nat.mul_comm c.tile_width c.num_cols]
  omega

/-- An in-tile y coordinate lies inside the buffer height. -/
theorem py_lt_height {c : ImageBuffer} {row y : Nat} (hwf : Wf c)
    (hrow : row < c.num_rows) (hy : y < c.tile_height) :
    row * c.tile_height + y < c.height := by
  have h2 : (row + 1) * c.tile_height ≤ c.num_rows * c.tile_height :=
    Nat.mul_le_mul_right _ hrow
  rw [Nat.succ_mul] at h2
  rw [hwf.2.1, Nat.mul_comm c.tile_height c.num_rows]
  omega

/-- A pixel index of the buffer stays below `width * height`. -/
theorem pixel_index_lt {c : ImageBuffer} {px py : Nat} (hwf : Wf c)
    (hpx : px < c.width) (hpy : py < c.height) :
    py * c.width + px < c.width * c.height := by
  have h2 : (py + 1) * c.width ≤ c.height * c.width :=
    Nat.mul_le_mul_right _ hpy
  rw [Nat.succ_mul] at h2
  rw [Nat.mul_comm c.width c.height]
  omega

/-- The source's per-pixel guard `dst_index + 3 < self.data.len()` always
holds for in-bounds tiles of a well-formed canvas: no write is skipped. -/
theorem dst_index_bound {c : ImageBuffer} {col row x y : Nat} (hwf : Wf c)
    (hcol : col < c.num_cols) (hrow : row < c.num_rows)
    (hx : x < c.tile_width) (hy : y < c.tile_height) :
    ((row * c.tile_height + y) * c.width + (col * c.tile_width + x)) * 4 + 3 < c.dataLen := by
  have hpx := px_lt_width hwf hcol hx
  have hpy := py_lt_height hwf hrow hy
  have hk := pixel_index_lt hwf hpx hpy
  rw [hwf.2.2]
  omega

/-- The pattern generator's unguarded index stays inside the buffer. -/
theorem pattern_index_bound {c : ImageBuffer} {px py : Nat} (hwf : Wf c)
    (hpx : px < c.width) (hpy : py < c.height) :
    (py * c.width + px) * 4 + 3 < c.dataLen := by
  have hk := pixel_index_lt hwf hpx hpy
  rw [hwf.2.2]
  omega

end IndexLemmas

section TileWriteLemmas

/-- Characterization of the compositing loop inside the target tile:
every byte of the tile rectangle is overwritten with the loop's color. -/
theorem tileWrite_inside {c : ImageBuffer} {col row : Nat} (color : Nat → Nat → RGBA)
    (hwf : Wf c) (hcol : col < c.num_cols) (hrow : row < c.num_rows)
    {x y b : Nat} (hx : x < c.tile_width) (hy : y < c.tile_height) (hb : b < 4) :
    tileWrite c (col * c.tile_width) (row * c.tile_height) color
        (((row * c.tile_height + y) * c.width + (col * c.tile_width + x)) * 4 + b)
      = byteOf (color x y) b := by
  apply writeLoop_apply_touch _ _ x y b hb (mem_rowMajor.mpr ⟨hx, hy⟩)
    (decide_eq_true (dst_index_bound hwf hcol hrow hx hy))
  rintro ⟨qx, qy⟩ hq _ hle hge
  obtain ⟨hqx, hqy⟩ := mem_rowMajor.mp hq
  dsimp only at hle hge
  have hk : (row * c.tile_height + qy) * c.width + (col * c.tile_width + qx) =
      (row * c.tile_height + y) * c.width + (col * c.tile_width + x) := by omega
  obtain ⟨h1, h2⟩ := mul_add_inj (px_lt_width hwf hcol hqx) (px_lt_width hwf hcol hx) hk
  have : qy = y := by omega
  have : qx = x := by omega
  simp_all

/-- Characterization of the compositing loop outside the target tile:
every byte of every other pixel is untouched. -/
theorem tileWrite_outside {c : ImageBuffer} {col row : Nat} (color : Nat → Nat → RGBA)
    (hwf : Wf c) (hcol : col < c.num_cols) (hrow : row < c.num_rows)
    {px py b : Nat} (hpx : px < c.width) (hpy : py < c.height) (hb : b < 4)
    (hout : px < col * c.tile_width ∨ col * c.tile_width + c.tile_width ≤ px ∨
            py < row * c.tile_height ∨ row * c.tile_height + c.tile_height ≤ py) :
    tileWrite c (col * c.tile_width) (row * c.tile_height) color ((py * c.width + px) * 4 + b)
      = c.data ((py * c.width + px) * 4 + b) := by
  apply writeLoop_apply_notouch
  rintro ⟨qx, qy⟩ hq _
  obtain ⟨hqx, hqy⟩ := mem_rowMajor.mp hq
  by_contra hcon
  push_neg at hcon
  dsimp only at hcon
  have hk : (row * c.tile_height + qy) * c.width + (col * c.tile_width + qx) =
      py * c.width + px := by omega
  obtain ⟨h1, h2⟩ := mul_add_inj (px_lt_width hwf hcol hqx) hpx hk
  omega

/-- Characterization of `generate_pattern` on a pattern-eligible pixel:
all four bytes are overwritten with the trig pattern color. -/
theorem generate_pattern_inside {c : ImageBuffer} (sinf : ℚ → ℚ) (frame : Nat)
    {px py b : Nat} (hpx : px < c.width) (hpy : py < c.height) (hb : b < 4)
    (hfree : c.is_pixel_in_loaded_tile px py = false) :
    (generate_pattern c sinf frame).data ((py * c.width + px) * 4 + b)
      = byteOf (patternColor sinf frame px py) b := by
  unfold generate_pattern
  dsimp only
  apply writeLoop_apply_touch _ _ px py b hb (mem_rowMajor.mpr ⟨hpx, hpy⟩)
    (by rw [hfree]; rfl)
  rintro ⟨qx, qy⟩ hq _ hle hge
  obtain ⟨hqx, hqy⟩ := mem_rowMajor.mp hq
  dsimp only at hle hge
  have hk : qy * c.width + qx = py * c.width + px := by omega
  obtain ⟨h1, h2⟩ := mul_add_inj hqx hpx hk
  simp_all

/-- Characterization of `generate_pattern` on a pixel of a loaded tile:
all four bytes are untouched. -/
theorem generate_pattern_skip {c : ImageBuffer} (sinf : ℚ → ℚ) (frame : Nat)
    {px py b : Nat} (hpx : px < c.width) (hpy : py < c.height) (hb : b < 4)
    (hin : c.is_pixel_in_loaded_tile px py = true) :
    (generate_pattern c sinf frame).data ((py * c.width + px) * 4 + b)
      = c.data ((py * c.width + px) * 4 + b) := by
  unfold generate_pattern
  dsimp only
  apply writeLoop_apply_notouch
  rintro ⟨qx, qy⟩ hq hg
  obtain ⟨hqx, hqy⟩ := mem_rowMajor.mp hq
  by_contra hcon
  push_neg at hcon
  dsimp only at hcon
  have hk : qy * c.width + qx = py * c.width + px := by omega
  obtain ⟨h1, h2⟩ := mul_add_inj hqx hpx hk
  subst h1 h2
  rw [hin] at hg
  exact absurd hg (by simp)

end TileWriteLemmas

section OperationShape

variable {decode : List Nat → Option Img} {resample : Img → Nat → Nat → Nat → Nat → RGBA}

/-- Out-of-bounds behaviour shared by all fallible operations: the
bounds check precedes every mutation, so the canvas is returned as is. -/
theorem load_with_scale_oob (c : ImageBuffer) (image_data : List Nat) (col row : Nat)
    (scale : ℚ) (h : c.num_cols ≤ col ∨ c.num_rows ≤ row) :
    load_image_from_bytes_with_scale decode resample c image_data col row scale =
      (Except.error (LoadError.invalidTilePosition col row c.num_cols c.num_rows), c) := by
  unfold load_image_from_bytes_with_scale
  rw [if_pos h]

theorem load_with_offset_oob (c : ImageBuffer) (image_data : List Nat) (col row : Nat)
    (scale : ℚ) (offset_x offset_y : Int) (h : c.num_cols ≤ col ∨ c.num_rows ≤ row) :
    load_image_from_bytes_with_scale_and_offset decode resample c image_data col row scale
        offset_x offset_y =
      (Except.error (LoadError.invalidTilePosition col row c.num_cols c.num_rows), c) := by
  unfold load_image_from_bytes_with_scale_and_offset
  rw [if_pos h]

theorem clear_tile_oob (c : ImageBuffer) (col row : Nat)
    (h : c.num_cols ≤ col ∨ c.num_rows ≤ row) :
    clear_tile c col row =
      (Except.error (LoadError.invalidTilePosition col row c.num_cols c.num_rows), c) := by
  unfold clear_tile
  rw [if_pos h]

/-- Decode-failure behaviour: the decode happens before any mutation. -/
theorem load_with_scale_decode_fail (c : ImageBuffer) (image_data : List Nat) (col row : Nat)
    (scale : ℚ) (hcol : col < c.num_cols) (hrow : row < c.num_rows)
    (hdec : decode image_data = none) :
    load_image_from_bytes_with_scale decode resample c image_data col row scale =
      (Except.error LoadError.decodeError, c) := by
  unfold load_image_from_bytes_with_scale
  rw [if_neg (by omega), hdec]

/-- Success shape of `load_image_from_bytes_with_scale`: occupancy is
upserted and exactly the target tile's rectangle is rewritten. -/
theorem load_with_scale_shape (c : ImageBuffer) (image_data : List Nat) (col row : Nat)
    (scale : ℚ) (hcol : col < c.num_cols) (hrow : row < c.num_rows)
    {img : Img} (hdec : decode image_data = some img) :
    load_image_from_bytes_with_scale decode resample c image_data col row scale =
      (Except.ok (), { c with
        loaded_tiles := upsertTile c.loaded_tiles col row
        data := tileWrite c (col * c.tile_width) (row * c.tile_height)
          (withScaleColor resample c img scale) }) := by
  unfold load_image_from_bytes_with_scale withScaleColor
  rw [if_neg (by omega), hdec]

/-- Success shape of `load_image_from_bytes_with_scale_and_offset`. -/
theorem load_with_offset_shape (c : ImageBuffer) (image_data : List Nat) (col row : Nat)
    (scale : ℚ) (offset_x offset_y : Int)
    (hcol : col < c.num_cols) (hrow : row < c.num_rows)
    {img : Img} (hdec : decode image_data = some img) :
    load_image_from_bytes_with_scale_and_offset decode resample c image_data col row
        scale offset_x offset_y =
      (Except.ok (), { c with
        loaded_tiles := upsertTile c.loaded_tiles col row
        data := tileWrite c (col * c.tile_width) (row * c.tile_height)
          (withOffsetColor resample c img scale offset_x offset_y) }) := by
  unfold load_image_from_bytes_with_scale_and_offset withOffsetColor
  rw [if_neg (by omega), hdec]

/-- Explicit success equation of `load_image_from_bytes_with_scale` in
the `scale >= 1.0` branch: destination offsets are zero and the source
is center-cropped (saturating subtraction). -/
theorem load_with_scale_eq_ge1 (c : ImageBuffer) (image_data : List Nat) (col row : Nat)
    (scale : ℚ) (img : Img) (hcol : col < c.num_cols) (hrow : row < c.num_rows)
    (hdec : decode image_data = some img) (hscale : 1 ≤ scale) :
    load_image_from_bytes_with_scale decode resample c image_data col row scale =
      (Except.ok (), { c with
        loaded_tiles := upsertTile c.loaded_tiles col row
        data := tileWrite c (col * c.tile_width) (row * c.tile_height)
          (compositeColor
            (resize_preserve_aspect_ratio resample img (f32toU32 ((c.tile_width : ℚ) * scale))
              (f32toU32 ((c.tile_height : ℚ) * scale))).width
            (resize_preserve_aspect_ratio resample img (f32toU32 ((c.tile_width : ℚ) * scale))
              (f32toU32 ((c.tile_height : ℚ) * scale))).height
            (resize_preserve_aspect_ratio resample img (f32toU32 ((c.tile_width : ℚ) * scale))
              (f32toU32 ((c.tile_height : ℚ) * scale))).pixel
            (((resize_preserve_aspect_ratio resample img (f32toU32 ((c.tile_width : ℚ) * scale))
              (f32toU32 ((c.tile_height : ℚ) * scale))).width - c.tile_width) / 2)
            (((resize_preserve_aspect_ratio resample img (f32toU32 ((c.tile_width : ℚ) * scale))
              (f32toU32 ((c.tile_height : ℚ) * scale))).height - c.tile_height) / 2)
            0 0 (bgColor c)) }) := by
  unfold load_image_from_bytes_with_scale
  rw [if_neg (by omega), hdec]
  simp only [if_pos hscale]

/-- Explicit success equation of `load_image_from_bytes_with_scale` in
the `scale < 1.0` branch: the source is not cropped and the destination
offsets center the image. -/
theorem load_with_scale_eq_lt1 (c : ImageBuffer) (image_data : List Nat) (col row : Nat)
    (scale : ℚ) (img : Img) (hcol : col < c.num_cols) (hrow : row < c.num_rows)
    (hdec : decode image_data = some img) (hscale : ¬ (1 ≤ scale)) :
    load_image_from_bytes_with_scale decode resample c image_data col row scale =
      (Except.ok (), { c with
        loaded_tiles := upsertTile c.loaded_tiles col row
        data := tileWrite c (col * c.tile_width) (row * c.tile_height)
          (compositeColor
            (resize_preserve_aspect_ratio resample img (f32toU32 ((c.tile_width : ℚ) * scale))
              (f32toU32 ((c.tile_height : ℚ) * scale))).width
            (resize_preserve_aspect_ratio resample img (f32toU32 ((c.tile_width : ℚ) * scale))
              (f32toU32 ((c.tile_height : ℚ) * scale))).height
            (resize_preserve_aspect_ratio resample img (f32toU32 ((c.tile_width : ℚ) * scale))
              (f32toU32 ((c.tile_height : ℚ) * scale))).pixel
            0 0
            ((c.tile_width - (resize_preserve_aspect_ratio resample img
              (f32toU32 ((c.tile_width : ℚ) * scale))
              (f32toU32 ((c.tile_height : ℚ) * scale))).width) / 2)
            ((c.tile_height - (resize_preserve_aspect_ratio resample img
              (f32toU32 ((c.tile_width : ℚ) * scale))
              (f32toU32 ((c.tile_height : ℚ) * scale))).height) / 2)
            (bgColor c)) }) := by
  unfold load_image_from_bytes_with_scale
  rw [if_neg (by omega), hdec]
  simp only [if_neg hscale]

/-- Explicit success equation of `clear_tile`. -/
theorem clear_tile_ok (c : ImageBuffer) (col row : Nat)
    (hcol : col < c.num_cols) (hrow : row < c.num_rows) :
    clear_tile c col row =
      (Except.ok (), { c with
        loaded_tiles := c.loaded_tiles.filter fun tile => !(tile.col == col && tile.row == row)
        data := tileWrite c (col * c.tile_width) (row * c.tile_height) fun _ _ => bgColor c }) := by
  unfold clear_tile
  rw [if_neg (by omega)]

/-- Success of `load_image_from_bytes_with_scale` implies the position
was in bounds and the bytes decoded. -/
theorem load_with_scale_ok_inv (c : ImageBuffer) (image_data : List Nat) (col row : Nat)
    (scale : ℚ)
    (h : (load_image_from_bytes_with_scale decode resample c image_data col row scale).1 =
      Except.ok ()) :
    col < c.num_cols ∧ row < c.num_rows ∧ ∃ img, decode image_data = some img := by
  by_cases hb : c.num_cols ≤ col ∨ c.num_rows ≤ row
  · rw [load_with_scale_oob _ _ _ _ _ hb] at h
    exact absurd h (by simp)
  · cases hdec : decode image_data with
    | none =>
      push_neg at hb
      rw [load_with_scale_decode_fail _ _ _ _ _ hb.1 hb.2 hdec] at h
      exact absurd h (by simp)
    | some img =>
      push_neg at hb
      exact ⟨hb.1, hb.2, img, rfl⟩

/-- Success of `load_image_from_bytes_with_scale_and_offset` implies the
position was in bounds and the bytes decoded. -/
theorem load_with_offset_ok_inv (c : ImageBuffer) (image_data : List Nat) (col row : Nat)
    (scale : ℚ) (offset_x offset_y : Int)
    (h : (load_image_from_bytes_with_scale_and_offset decode resample c image_data col row scale
      offset_x offset_y).1 = Except.ok ()) :
    col < c.num_cols ∧ row < c.num_rows ∧ ∃ img, decode image_data = some img := by
  by_cases hb : c.num_cols ≤ col ∨ c.num_rows ≤ row
  · rw [load_with_offset_oob _ _ _ _ _ _ _ hb] at h
    exact absurd h (by simp)
  · cases hdec : decode image_data with
    | none =>
      unfold load_image_from_bytes_with_scale_and_offset at h
      rw [if_neg hb, hdec] at h
      exact absurd h (by simp)
    | some img =>
      push_neg at hb
      exact ⟨hb.1, hb.2, img, rfl⟩

end OperationShape

section OccupancyLemmas

/-- After an upsert the occupancy set holds exactly one record for the
cell: the retain/push pair removes any previous record first. -/
theorem upsertTile_filter (l : List TileInfo) (col row : Nat) :
    ((upsertTile l col row).filter fun tile => tile.col == col && tile.row == row) =
      [⟨col, row, true⟩] := by
  unfold upsertTile
  rw [List.filter_append]
  have h1 : ((l.filter fun tile => !(tile.col == col && tile.row == row)).filter
      fun tile => tile.col == col && tile.row == row) = [] := by
    rw [List.filter_eq_nil_iff]
    intro t ht
    have h2 := (List.mem_filter.mp ht).2
    simp only [Bool.not_eq_true'] at h2
    simp [h2]
  rw [h1]
  simp [List.filter]

/-- The freshly upserted record makes `is_tile_loaded` true. -/
theorem is_tile_loaded_upsert (c : ImageBuffer) (l : List TileInfo) (col row : Nat) :
    ImageBuffer.is_tile_loaded { c with loaded_tiles := upsertTile l col row } col row = true := by
  unfold ImageBuffer.is_tile_loaded upsertTile
  rw [List.any_append]
  simp

end OccupancyLemmas

section ResizeLemmas

/-- Rounding a rational bounded by a natural stays bounded by it. -/
theorem round_le_natCast {q : ℚ} (n : Nat) (h : q ≤ (n : ℚ)) : round q ≤ (n : Int) := by
  have h1 : round q ≤ round ((n : ℚ)) := by
    rw [round_eq, round_eq]
    exact Int.floor_mono (by linarith)
  rwa [round_natCast] at h1

/-- The fit-ratio product never exceeds the width bound. -/
theorem mul_min_ratio_le_left (ow oh bw bh : Nat) (how : 1 ≤ ow) :
    (ow : ℚ) * min ((bw : ℚ) / (ow : ℚ)) ((bh : ℚ) / (oh : ℚ)) ≤ (bw : ℚ) := by
  have how' : (0 : ℚ) < (ow : ℚ) := by exact_mod_cast how
  have hmin : min ((bw : ℚ) / (ow : ℚ)) ((bh : ℚ) / (oh : ℚ)) ≤ (bw : ℚ) / (ow : ℚ) :=
    min_le_left _ _
  calc (ow : ℚ) * min ((bw : ℚ) / (ow : ℚ)) ((bh : ℚ) / (oh : ℚ))
      ≤ (ow : ℚ) * ((bw : ℚ) / (ow : ℚ)) := by
        exact mul_le_mul_of_nonneg_left hmin (le_of_lt how')
    _ = (bw : ℚ) := by field_simp

/-- The fit-ratio product never exceeds the height bound. -/
theorem mul_min_ratio_le_right (ow oh bw bh : Nat) (hoh : 1 ≤ oh) :
    (oh : ℚ) * min ((bw : ℚ) / (ow : ℚ)) ((bh : ℚ) / (oh : ℚ)) ≤ (bh : ℚ) := by
  have hoh' : (0 : ℚ) < (oh : ℚ) := by exact_mod_cast hoh
  have hmin : min ((bw : ℚ) / (ow : ℚ)) ((bh : ℚ) / (oh : ℚ)) ≤ (bh : ℚ) / (oh : ℚ) :=
    min_le_right _ _
  calc (oh : ℚ) * min ((bw : ℚ) / (ow : ℚ)) ((bh : ℚ) / (oh : ℚ))
      ≤ (oh : ℚ) * ((bh : ℚ) / (oh : ℚ)) := by
        exact mul_le_mul_of_nonneg_left hmin (le_of_lt hoh')
    _ = (bh : ℚ) := by field_simp

/-- The external `resize_dimensions` never exceeds the requested box,
except for its 1-pixel minimum per axis. -/
theorem resize_dimensions_le (ow oh bw bh : Nat) (how : 1 ≤ ow) (hoh : 1 ≤ oh)
    (hbw : bw ≤ u32MAX) (hbh : bh ≤ u32MAX) :
    (resize_dimensions ow oh bw bh).1 ≤ max bw 1 ∧
    (resize_dimensions ow oh bw bh).2 ≤ max bh 1 := by
  have hu : u32MAX = 4294967295 := rfl
  have hW : (round ((ow : ℚ) * min ((bw : ℚ) / (ow : ℚ)) ((bh : ℚ) / (oh : ℚ)))).toNat ≤ bw :=
    Int.toNat_le.mpr (round_le_natCast _ (mul_min_ratio_le_left ow oh bw bh how))
  have hH : (round ((oh : ℚ) * min ((bw : ℚ) / (ow : ℚ)) ((bh : ℚ) / (oh : ℚ)))).toNat ≤ bh :=
    Int.toNat_le.mpr (round_le_natCast _ (mul_min_ratio_le_right ow oh bw bh hoh))
  simp only [resize_dimensions]
  split
  · next hlt => exact absurd hlt (by omega)
  · split
    · next hlt => exact absurd hlt (by omega)
    · exact ⟨by omega, by omega⟩

/-- `resize_preserve_aspect_ratio` never exceeds the target box, except
for the external resizer's 1-pixel minimum per axis. -/
theorem resize_preserve_dims_le (resample : Img → Nat → Nat → Nat → Nat → RGBA) (img : Img)
    (tw th : Nat) (how : 1 ≤ img.width) (hoh : 1 ≤ img.height)
    (htw : tw ≤ u32MAX) (hth : th ≤ u32MAX) :
    (resize_preserve_aspect_ratio resample img tw th).width ≤ max tw 1 ∧
    (resize_preserve_aspect_ratio resample img tw th).height ≤ max th 1 := by
  have hu : u32MAX = 4294967295 := rfl
  have hfw : f32toU32 ((img.width : ℚ) *
      min ((tw : ℚ) / (img.width : ℚ)) ((th : ℚ) / (img.height : ℚ))) ≤ tw := by
    have h1 : ⌊(img.width : ℚ) *
        min ((tw : ℚ) / (img.width : ℚ)) ((th : ℚ) / (img.height : ℚ))⌋ ≤ (tw : Int) := by
      have h0 := Int.floor_mono (mul_min_ratio_le_left img.width img.height tw th how)
      rwa [Int.floor_natCast] at h0
    have h2 := Int.toNat_le.mpr h1
    unfold f32toU32
    omega
  have hfh : f32toU32 ((img.height : ℚ) *
      min ((tw : ℚ) / (img.width : ℚ)) ((th : ℚ) / (img.height : ℚ))) ≤ th := by
    have h1 : ⌊(img.height : ℚ) *
        min ((tw : ℚ) / (img.width : ℚ)) ((th : ℚ) / (img.height : ℚ))⌋ ≤ (th : Int) := by
      have h0 := Int.floor_mono (mul_min_ratio_le_right img.width img.height tw th hoh)
      rwa [Int.floor_natCast] at h0
    have h2 := Int.toNat_le.mpr h1
    unfold f32toU32
    omega
  simp only [resize_preserve_aspect_ratio, imageResize]
  split
  · next heq => exact ⟨by omega, by omega⟩
  · next heq =>
    have hd := resize_dimensions_le img.width img.height
      (f32toU32 ((img.width : ℚ) *
        min ((tw : ℚ) / (img.width : ℚ)) ((th : ℚ) / (img.height : ℚ))))
      (f32toU32 ((img.height : ℚ) *
        min ((tw : ℚ) / (img.width : ℚ)) ((th : ℚ) / (img.height : ℚ))))
      how hoh (by omega) (by omega)
    dsimp only
    exact ⟨by omega, by omega⟩

/-- `resize_preserve_aspect_ratio` never exceeds a positive target box. -/
theorem resize_preserve_le_box (resample : Img → Nat → Nat → Nat → Nat → RGBA) (img : Img)
    (tw th : Nat) (how : 1 ≤ img.width) (hoh : 1 ≤ img.height)
    (htw1 : 1 ≤ tw) (hth1 : 1 ≤ th) (htw : tw ≤ u32MAX) (hth : th ≤ u32MAX) :
    (resize_preserve_aspect_ratio resample img tw th).width ≤ tw ∧
    (resize_preserve_aspect_ratio resample img tw th).height ≤ th := by
  have := resize_preserve_dims_le resample img tw th how hoh htw hth
  exact ⟨by omega, by omega⟩

/-- A `scale < 1` scaled box is strictly below the tile extent. -/
theorem f32toU32_scaled_lt {tw : Nat} {scale : ℚ} (htw : 1 ≤ tw) (hs : scale < 1) :
    f32toU32 ((tw : ℚ) * scale) < tw := by
  have htw' : (0 : ℚ) < (tw : ℚ) := by exact_mod_cast htw
  have h1 : (tw : ℚ) * scale < (tw : ℚ) := by nlinarith
  have h2 : ⌊(tw : ℚ) * scale⌋ < (tw : Int) := by
    rw [Int.floor_lt]
    push_cast
    exact h1
  unfold f32toU32
  omega

/-- A nonpositive scale collapses the scaled box to zero. -/
theorem f32toU32_nonpos {tw : Nat} {scale : ℚ} (hs : scale ≤ 0) :
    f32toU32 ((tw : ℚ) * scale) = 0 := by
  have h1 : (tw : ℚ) * scale ≤ 0 :=
    mul_nonpos_of_nonneg_of_nonpos (by positivity) hs
  have h2 : ⌊(tw : ℚ) * scale⌋ ≤ 0 := by
    have := Int.floor_mono h1
    rwa [Int.floor_zero] at this
  unfold f32toU32
  omega

/-- Resizing into a `0x0` box yields a `1x1` image (the external
resizer's per-axis minimum), never an error. -/
theorem resize_preserve_zero_box (resample : Img → Nat → Nat → Nat → Nat → RGBA) (img : Img)
    (how : 1 ≤ img.width) (hoh : 1 ≤ img.height) :
    resize_preserve_aspect_ratio resample img 0 0 =
      { width := 1, height := 1, pixel := resample img 1 1 } := by
  have h0 : f32toU32 0 = 0 := by norm_num [f32toU32]
  simp only [resize_preserve_aspect_ratio, imageResize, resize_dimensions,
    Nat.cast_zero, zero_div, min_self, mul_zero, h0, round_zero, Int.toNat_zero,
    Nat.zero_max]
  rw [if_neg (by omega), if_neg (by norm_num [u32MAX]), if_neg (by norm_num [u32MAX])]

end ResizeLemmas

section ConcreteComputations

/-- The tile write at tile `(0,0)`, pixel `(0,0)`, byte 0 — the common
evaluation point of the concrete scenarios. -/
theorem tileWrite_byte0 (c : ImageBuffer) (color : Nat → Nat → RGBA) (hwf : Wf c)
    (hc0 : 0 < c.num_cols) (hr0 : 0 < c.num_rows)
    (htw : 0 < c.tile_width) (hth : 0 < c.tile_height) :
    tileWrite c (0 * c.tile_width) (0 * c.tile_height) color 0 = byteOf (color 0 0) 0 := by
  have hin := @tileWrite_inside c 0 0 color hwf hc0 hr0 0 0 0 htw hth (by omega)
  simpa using hin

/-- The compositing color with all four offsets zero: image pixel inside
the resampled bounds, background outside. -/
theorem compositeColor_no_offset (aw ah : Nat) (f : Nat → Nat → RGBA) (bg : RGBA) (x y : Nat) :
    compositeColor aw ah f 0 0 0 0 bg x y = if x < aw ∧ y < ah then f x y else bg := by
  have h0 : u32toI32 0 = 0 := rfl
  unfold compositeColor
  rw [h0]
  simp only [sub_zero, add_zero, Int.toNat_natCast]
  by_cases hx : x < aw <;> by_cases hy : y < ah
  · rw [if_pos ⟨by positivity, by positivity, by exact_mod_cast hx, by exact_mod_cast hy⟩,
      if_pos ⟨hx, hy⟩]
  · rw [if_neg (by push_neg; intro _ _ _; exact_mod_cast not_lt.mp hy), if_neg (by tauto)]
  · rw [if_neg (by push_neg; intro _ _ h3; exact absurd (by exact_mod_cast h3) hx), if_neg (by tauto)]
  · rw [if_neg (by push_neg; intro _ _ h3; exact absurd (by exact_mod_cast h3) hx), if_neg (by tauto)]

/-- A 8x4 image fit into a 4x4 box resamples to 4x2. -/
theorem resize84 (resample : Img → Nat → Nat → Nat → Nat → RGBA) :
    resize_preserve_aspect_ratio resample img84 4 4 = ⟨4, 2, resample img84 4 2⟩ := by
  have hd : resize_dimensions 8 4 4 2 = (4, 2) := by
    simp only [resize_dimensions]
    norm_num [min_def, round_eq, u32MAX]
    try omega
  have h4 : f32toU32 (4 : ℚ) = 4 := by norm_num [f32toU32, u32MAX]; try omega
  have h2 : f32toU32 (2 : ℚ) = 2 := by norm_num [f32toU32, u32MAX]; try omega
  simp only [resize_preserve_aspect_ratio, img84]
  norm_num [min_def]
  rw [h4, h2]
  simp only [imageResize]
  rw [if_neg (by norm_num), hd]

/-- A 200x100 image fit into a 100x100 box resamples to 100x50. -/
theorem resize200 (resample : Img → Nat → Nat → Nat → Nat → RGBA) (pix : Nat → Nat → RGBA) :
    resize_preserve_aspect_ratio resample ⟨200, 100, pix⟩ 100 100 =
      ⟨100, 50, resample ⟨200, 100, pix⟩ 100 50⟩ := by
  have hd : resize_dimensions 200 100 100 50 = (100, 50) := by
    simp only [resize_dimensions]
    norm_num [min_def, round_eq, u32MAX]
    try omega
  have h100 : f32toU32 (100 : ℚ) = 100 := by norm_num [f32toU32, u32MAX]; try omega
  have h50 : f32toU32 (50 : ℚ) = 50 := by norm_num [f32toU32, u32MAX]; try omega
  simp only [resize_preserve_aspect_ratio]
  norm_num [min_def]
  rw [h100, h50]
  simp only [imageResize]
  rw [if_neg (by norm_num), hd]

/-- A 3x2 image fit into a 100x1 box resamples to 1x1 (the code truncates
`3 * (1/2)` to `1` before the external refit). -/
theorem resize32 (resample : Img → Nat → Nat → Nat → Nat → RGBA) :
    resize_preserve_aspect_ratio resample img32 100 1 = ⟨1, 1, resample img32 1 1⟩ := by
  have hd : resize_dimensions 3 2 1 1 = (1, 1) := by
    simp only [resize_dimensions]
    norm_num [min_def, round_eq, u32MAX]
  have h1 : f32toU32 (1 : ℚ) = 1 := by norm_num [f32toU32, u32MAX]; try omega
  have h32 : f32toU32 (3 / 2 : ℚ) = 1 := by norm_num [f32toU32, u32MAX]; try omega
  simp only [resize_preserve_aspect_ratio, img32]
  norm_num [min_def]
  rw [h32, h1]
  simp only [imageResize]
  rw [if_neg (by norm_num), hd]

/-- `as u32` round-trip on small nonnegative values. -/
theorem i32toU32_natCast {n : Nat} (h : n < 4294967296) : i32toU32 (n : Int) = n := by
  unfold i32toU32
  rw [Int.emod_eq_of_lt (by positivity) (by exact_mod_cast h)]
  exact Int.toNat_natCast n

theorem f32toU32_le_u32MAX (q : ℚ) : f32toU32 q ≤ u32MAX := Nat.min_le_right _ _

end ConcreteComputations

section Claims

/-- C4: for every (col,row) with col >= num_cols or row >= num_rows, every
load variant and clear_tile fails with the InvalidTilePosition error, and
after the failed call the pixel buffer is byte-for-byte unchanged and the
occupancy set is unchanged (the returned canvas is exactly the input). -/
theorem c4_out_of_bounds_fails_without_mutation
    (decode : List Nat → Option Img) (resample : Img → Nat → Nat → Nat → Nat → RGBA)
    (c : ImageBuffer) (image_data : List Nat) (col row : Nat) (scale : ℚ)
    (offset_x offset_y : Int) (h : c.num_cols ≤ col ∨ c.num_rows ≤ row) :
    load_image_from_bytes decode resample c image_data col row =
      (Except.error (LoadError.invalidTilePosition col row c.num_cols c.num_rows), c) ∧
    load_image_from_bytes_with_scale decode resample c image_data col row scale =
      (Except.error (LoadError.invalidTilePosition col row c.num_cols c.num_rows), c) ∧
    load_image_from_bytes_with_scale_and_offset decode resample c image_data col row scale
        offset_x offset_y =
      (Except.error (LoadError.invalidTilePosition col row c.num_cols c.num_rows), c) ∧
    clear_tile c col row =
      (Except.error (LoadError.invalidTilePosition col row c.num_cols c.num_rows), c) :=
  ⟨load_with_scale_oob c image_data col row 1 h,
   load_with_scale_oob c image_data col row scale h,
   load_with_offset_oob c image_data col row scale offset_x offset_y h,
   clear_tile_oob c col row h⟩

/-- Witness for C4 at a concrete out-of-bounds call. -/
theorem c4_witness :
    load_image_from_bytes dec22 resampleK (ImageBuffer.new 2 2 1 1) [] 5 0 =
      (Except.error (LoadError.invalidTilePosition 5 0 1 1), ImageBuffer.new 2 2 1 1) ∧
    clear_tile (ImageBuffer.new 2 2 1 1) 5 0 =
      (Except.error (LoadError.invalidTilePosition 5 0 1 1), ImageBuffer.new 2 2 1 1) := by
  have h := c4_out_of_bounds_fails_without_mutation dec22 resampleK (ImageBuffer.new 2 2 1 1)
    [] 5 0 1 0 0 (Or.inl (by decide))
  exact ⟨h.1, h.2.2.2⟩

/-- C6: after any load variant returns success, is_tile_loaded(col,row) is
true and the occupancy set holds exactly one record for (col,row) — the
retain-then-push upsert never duplicates records. -/
theorem c6_load_success_single_record
    (decode : List Nat → Option Img) (resample : Img → Nat → Nat → Nat → Nat → RGBA)
    (c : ImageBuffer) (image_data : List Nat) (col row : Nat) (scale : ℚ)
    (offset_x offset_y : Int) :
    ((load_image_from_bytes_with_scale decode resample c image_data col row scale).1 =
        Except.ok () →
      ((load_image_from_bytes_with_scale decode resample c image_data col row
          scale).2.is_tile_loaded col row = true ∧
       ((load_image_from_bytes_with_scale decode resample c image_data col row
          scale).2.loaded_tiles.filter
            fun tile => tile.col == col && tile.row == row).length = 1)) ∧
    ((load_image_from_bytes_with_scale_and_offset decode resample c image_data col row scale
        offset_x offset_y).1 = Except.ok () →
      ((load_image_from_bytes_with_scale_and_offset decode resample c image_data col row scale
          offset_x offset_y).2.is_tile_loaded col row = true ∧
       ((load_image_from_bytes_with_scale_and_offset decode resample c image_data col row scale
          offset_x offset_y).2.loaded_tiles.filter
            fun tile => tile.col == col && tile.row == row).length = 1)) := by
  constructor
  · intro h
    obtain ⟨hcol, hrow, img, hdec⟩ := load_with_scale_ok_inv c image_data col row scale h
    rw [load_with_scale_shape c image_data col row scale hcol hrow hdec]
    refine ⟨?_, ?_⟩
    · simp [ImageBuffer.is_tile_loaded, upsertTile]
    · dsimp only
      rw [upsertTile_filter]
      rfl
  · intro h
    obtain ⟨hcol, hrow, img, hdec⟩ :=
      load_with_offset_ok_inv c image_data col row scale offset_x offset_y h
    rw [load_with_offset_shape c image_data col row scale offset_x offset_y hcol hrow hdec]
    refine ⟨?_, ?_⟩
    · simp [ImageBuffer.is_tile_loaded, upsertTile]
    · dsimp only
      rw [upsertTile_filter]
      rfl

/-- Witness for C6 at a concrete successful load. -/
theorem c6_witness :
    (load_image_from_bytes_with_scale dec22 resampleK (ImageBuffer.new 2 2 1 1) [] 0 0
      1).2.is_tile_loaded 0 0 = true ∧
    ((load_image_from_bytes_with_scale dec22 resampleK (ImageBuffer.new 2 2 1 1) [] 0 0
      1).2.loaded_tiles.filter fun tile => tile.col == 0 && tile.row == 0).length = 1 :=
  (c6_load_success_single_record dec22 resampleK (ImageBuffer.new 2 2 1 1) [] 0 0 1 0 0).1
    (by rw [@load_with_scale_shape dec22 resampleK (ImageBuffer.new 2 2 1 1) [] 0 0 1
      (by decide) (by decide) img22 rfl])

/-- C7: a successful load mutates only bytes of pixels inside the target
tile rectangle; every byte of every pixel outside it is unchanged. -/
theorem c7_load_touches_only_target_tile
    (decode : List Nat → Option Img) (resample : Img → Nat → Nat → Nat → Nat → RGBA)
    (c : ImageBuffer) (image_data : List Nat) (col row : Nat) (scale : ℚ)
    (offset_x offset_y : Int) (hwf : Wf c)
    (px py b : Nat) (hpx : px < c.width) (hpy : py < c.height) (hb : b < 4)
    (hout : px < col * c.tile_width ∨ col * c.tile_width + c.tile_width ≤ px ∨
            py < row * c.tile_height ∨ row * c.tile_height + c.tile_height ≤ py) :
    ((load_image_from_bytes_with_scale decode resample c image_data col row scale).1 =
        Except.ok () →
      (load_image_from_bytes_with_scale decode resample c image_data col row scale).2.data
          ((py * c.width + px) * 4 + b) = c.data ((py * c.width + px) * 4 + b)) ∧
    ((load_image_from_bytes_with_scale_and_offset decode resample c image_data col row scale
        offset_x offset_y).1 = Except.ok () →
      (load_image_from_bytes_with_scale_and_offset decode resample c image_data col row scale
          offset_x offset_y).2.data
          ((py * c.width + px) * 4 + b) = c.data ((py * c.width + px) * 4 + b)) := by
  constructor
  · intro h
    obtain ⟨hcol, hrow, img, hdec⟩ := load_with_scale_ok_inv c image_data col row scale h
    rw [load_with_scale_shape c image_data col row scale hcol hrow hdec]
    dsimp only
    exact tileWrite_outside _ hwf hcol hrow hpx hpy hb hout
  · intro h
    obtain ⟨hcol, hrow, img, hdec⟩ :=
      load_with_offset_ok_inv c image_data col row scale offset_x offset_y h
    rw [load_with_offset_shape c image_data col row scale offset_x offset_y hcol hrow hdec]
    dsimp only
    exact tileWrite_outside _ hwf hcol hrow hpx hpy hb hout

/-- Witness for C7: loading into tile (0,0) of a 2x1 grid leaves the
first byte of tile (1,0) (pixel (2,0)) unchanged at its initial 0. -/
theorem c7_witness :
    (load_image_from_bytes_with_scale dec22 resampleK (ImageBuffer.new 2 2 2 1) [] 0 0
      1).2.data ((0 * 4 + 2) * 4 + 0) = (ImageBuffer.new 2 2 2 1).data ((0 * 4 + 2) * 4 + 0) :=
  (c7_load_touches_only_target_tile dec22 resampleK (ImageBuffer.new 2 2 2 1) [] 0 0 1 0 0
    ⟨rfl, rfl, rfl⟩ 2 0 0 (by decide) (by decide) (by decide)
    (Or.inr (Or.inl (by decide)))).1
    (by rw [@load_with_scale_shape dec22 resampleK (ImageBuffer.new 2 2 2 1) [] 0 0 1
      (by decide) (by decide) img22 rfl])

end Claims

section ClaimsB

/-- C8: clear_tile on an in-bounds cell with no occupancy record succeeds,
leaves the occupancy set unchanged (is_tile_loaded false before and
after), and overwrites every byte of the tile rectangle with the current
background color. -/
theorem c8_clear_unoccupied_tile (c : ImageBuffer) (col row : Nat) (hwf : Wf c)
    (hcol : col < c.num_cols) (hrow : row < c.num_rows)
    (hfree : ∀ t ∈ c.loaded_tiles, ¬(t.col = col ∧ t.row = row)) :
    (clear_tile c col row).1 = Except.ok () ∧
    (clear_tile c col row).2.loaded_tiles = c.loaded_tiles ∧
    c.is_tile_loaded col row = false ∧
    (clear_tile c col row).2.is_tile_loaded col row = false ∧
    ∀ x y b, x < c.tile_width → y < c.tile_height → b < 4 →
      (clear_tile c col row).2.data
          (((row * c.tile_height + y) * c.width + (col * c.tile_width + x)) * 4 + b) =
        byteOf (bgColor c) b := by
  have hfilter :
      (c.loaded_tiles.filter fun tile => !(tile.col == col && tile.row == row)) =
        c.loaded_tiles := by
    rw [List.filter_eq_self]
    intro t ht
    by_cases hc : t.col = col
    · by_cases hr : t.row = row
      · exact absurd ⟨hc, hr⟩ (hfree t ht)
      · simp [hr]
    · simp [hc]
  have hbefore : c.is_tile_loaded col row = false := by
    unfold ImageBuffer.is_tile_loaded
    rw [List.any_eq_false]
    intro t ht hcontra
    simp only [Bool.and_eq_true, beq_iff_eq] at hcontra
    exact hfree t ht ⟨hcontra.1.1, hcontra.1.2⟩
  rw [clear_tile_ok c col row hcol hrow]
  refine ⟨rfl, ?_, hbefore, ?_, ?_⟩
  · dsimp only
    exact hfilter
  · unfold ImageBuffer.is_tile_loaded at hbefore ⊢
    dsimp only
    rw [hfilter]
    exact hbefore
  · intro x y b hx hy hb
    dsimp only
    exact tileWrite_inside _ hwf hcol hrow hx hy hb

/-- Witness for C8: a never-loaded cell with background (10,20,30,255) is
filled with exactly that color. -/
theorem c8_witness :
    (clear_tile ((ImageBuffer.new 1 1 1 1).set_background_color 10 20 30 255) 0 0).1 =
      Except.ok () ∧
    ((ImageBuffer.new 1 1 1 1).set_background_color 10 20 30 255).is_tile_loaded 0 0 = false ∧
    (clear_tile ((ImageBuffer.new 1 1 1 1).set_background_color 10 20 30 255) 0
      0).2.is_tile_loaded 0 0 = false ∧
    (clear_tile ((ImageBuffer.new 1 1 1 1).set_background_color 10 20 30 255) 0 0).2.data 0 =
      10 := by
  have h := c8_clear_unoccupied_tile ((ImageBuffer.new 1 1 1 1).set_background_color 10 20 30 255)
    0 0 ⟨rfl, rfl, rfl⟩ (by decide) (by decide) (by intro t ht _; cases ht)
  refine ⟨h.1, h.2.2.1, h.2.2.2.1, ?_⟩
  have hd := h.2.2.2.2 0 0 0 (by decide) (by decide) (by decide)
  simpa using hd

/-- C10: under the invariant established by `new` (no-overflow derived
dimensions), the per-pixel guard `dst_index + 3 < data.len()` holds for
every pixel of every in-bounds tile, so no tile write is skipped (the
whole rectangle is covered), and the pattern generator's unguarded
indexing stays in bounds; `new` itself establishes the invariant. -/
theorem c10_buffer_indexing_safe (c : ImageBuffer) (hwf : Wf c) (col row : Nat)
    (hcol : col < c.num_cols) (hrow : row < c.num_rows) :
    (∀ x y, x < c.tile_width → y < c.tile_height →
      ((row * c.tile_height + y) * c.width + (col * c.tile_width + x)) * 4 + 3 < c.dataLen) ∧
    (∀ color : Nat → Nat → RGBA, ∀ x y b, x < c.tile_width → y < c.tile_height → b < 4 →
      tileWrite c (col * c.tile_width) (row * c.tile_height) color
          (((row * c.tile_height + y) * c.width + (col * c.tile_width + x)) * 4 + b) =
        byteOf (color x y) b) ∧
    (∀ px py, px < c.width → py < c.height → (py * c.width + px) * 4 + 3 < c.dataLen) ∧
    (∀ tw th nc nr : Nat, Wf (ImageBuffer.new tw th nc nr)) :=
  ⟨fun _ _ hx hy => dst_index_bound hwf hcol hrow hx hy,
   fun color _ _ _ hx hy hb => tileWrite_inside color hwf hcol hrow hx hy hb,
   fun _ _ hpx hpy => pattern_index_bound hwf hpx hpy,
   fun _ _ _ _ => ⟨rfl, rfl, rfl⟩⟩

/-- Witness for C10 at a concrete canvas and tile. -/
theorem c10_witness :
    ((0 * 2 + 1) * 4 + (1 * 2 + 1)) * 4 + 3 < (ImageBuffer.new 2 2 2 2).dataLen ∧
    (1 * 4 + 3) * 4 + 3 < (ImageBuffer.new 2 2 2 2).dataLen := by
  have h := c10_buffer_indexing_safe (ImageBuffer.new 2 2 2 2) ⟨rfl, rfl, rfl⟩ 1 0
    (by decide) (by decide)
  exact ⟨by simpa using h.1 1 1 (by decide) (by decide),
         by simpa using h.2.2.1 3 1 (by decide) (by decide)⟩

end ClaimsB

section ClaimsC

/-- The source's membership test agrees with tile-rectangle membmership
over occupied records. -/
theorem is_pixel_in_loaded_tile_iff (c : ImageBuffer) (x y : Nat) :
    c.is_pixel_in_loaded_tile x y = true ↔
      ∃ t ∈ c.loaded_tiles, t.has_image = true ∧
        t.col * c.tile_width ≤ x ∧ x < t.col * c.tile_width + c.tile_width ∧
        t.row * c.tile_height ≤ y ∧ y < t.row * c.tile_height + c.tile_height := by
  unfold ImageBuffer.is_pixel_in_loaded_tile
  rw [List.any_eq_true]
  constructor
  · rintro ⟨t, ht, hp⟩
    simp only [Bool.and_eq_true, decide_eq_true_eq] at hp
    exact ⟨t, ht, hp.1, hp.2.1.1.1, hp.2.1.1.2, hp.2.1.2, hp.2.2⟩
  · rintro ⟨t, ht, h1, h2, h3, h4, h5⟩
    refine ⟨t, ht, ?_⟩
    simp only [Bool.and_eq_true, decide_eq_true_eq]
    exact ⟨h1, ⟨⟨h2, h3⟩, h4⟩, h5⟩

/-- With a sine bounded in `[-1, 1]` the saturating `as u8` cast of the
pattern channel collapses to the plain floor. -/
theorem f32toU8_pattern {s : ℚ} (h1 : -1 ≤ s) (h2 : s ≤ 1) :
    f32toU8 (s * 127 + 128) = (⌊s * 127 + 128⌋).toNat := by
  unfold f32toU8
  have hlo : (1 : ℚ) ≤ s * 127 + 128 := by nlinarith
  have hhi : s * 127 + 128 ≤ 255 := by nlinarith
  have hfl : (1 : Int) ≤ ⌊s * 127 + 128⌋ := by
    rw [Int.le_floor]
    push_cast
    linarith
  have hfh : ⌊s * 127 + 128⌋ ≤ 255 := by
    have h := Int.floor_mono hhi
    rwa [show ⌊(255 : ℚ)⌋ = 255 by norm_num] at h
  omega

/-- C5: generate_pattern leaves every byte of every pixel inside the
rectangle of an occupied tile unchanged, and overwrites every other
pixel of the buffer with exactly
`r = floor(sin(x + frame*0.1)*127 + 128)`,
`g = floor(sin(y + frame*0.15)*127 + 128)`,
`b = floor(sin((x+y) + frame*0.2)*127 + 128)`, `a = 255`
(the `f32` sine is abstracted as a bounded parameter `sinf`). -/
theorem c5_generate_pattern_occupancy_exclusive (c : ImageBuffer) (sinf : ℚ → ℚ)
    (hsin : ∀ t, -1 ≤ sinf t ∧ sinf t ≤ 1) (frame : Nat)
    (px py b : Nat) (hpx : px < c.width) (hpy : py < c.height) (hb : b < 4) :
    ((∃ t ∈ c.loaded_tiles, t.has_image = true ∧
        t.col * c.tile_width ≤ px ∧ px < t.col * c.tile_width + c.tile_width ∧
        t.row * c.tile_height ≤ py ∧ py < t.row * c.tile_height + c.tile_height) →
      (generate_pattern c sinf frame).data ((py * c.width + px) * 4 + b) =
        c.data ((py * c.width + px) * 4 + b)) ∧
    (¬(∃ t ∈ c.loaded_tiles, t.has_image = true ∧
        t.col * c.tile_width ≤ px ∧ px < t.col * c.tile_width + c.tile_width ∧
        t.row * c.tile_height ≤ py ∧ py < t.row * c.tile_height + c.tile_height) →
      (generate_pattern c sinf frame).data ((py * c.width + px) * 4 + b) =
        byteOf ⟨(⌊sinf ((px : ℚ) + (frame : ℚ) * (1 / 10)) * 127 + 128⌋).toNat,
                (⌊sinf ((py : ℚ) + (frame : ℚ) * (15 / 100)) * 127 + 128⌋).toNat,
                (⌊sinf (((px : ℚ) + (py : ℚ)) + (frame : ℚ) * (2 / 10)) * 127 + 128⌋).toNat,
                255⟩ b) := by
  constructor
  · intro hocc
    exact generate_pattern_skip sinf frame hpx hpy hb
      ((is_pixel_in_loaded_tile_iff c px py).mpr hocc)
  · intro hocc
    have hfree : c.is_pixel_in_loaded_tile px py = false := by
      rcases h : c.is_pixel_in_loaded_tile px py with _ | _
      · rfl
      · exact absurd ((is_pixel_in_loaded_tile_iff c px py).mp h) hocc
    rw [generate_pattern_inside sinf frame hpx hpy hb hfree]
    unfold patternColor
    rw [f32toU8_pattern (hsin _).1 (hsin _).2, f32toU8_pattern (hsin _).1 (hsin _).2,
      f32toU8_pattern (hsin _).1 (hsin _).2]

/-- Witness for C5: on a freshly constructed 1x1 canvas with no loaded
tiles and the constant-zero sine, the single pixel's red byte becomes
`floor(0*127+128) = 128`. -/
theorem c5_witness :
    (generate_pattern (ImageBuffer.new 1 1 1 1) (fun _ => 0) 0).data 0 = 128 := by
  have h := (c5_generate_pattern_occupancy_exclusive (ImageBuffer.new 1 1 1 1) (fun _ => 0)
    (fun _ => by norm_num) 0 0 0 0 (by decide) (by decide) (by decide)).2
    (by rintro ⟨t, ht, _⟩; cases ht)
  simpa using h

end ClaimsC

section ClaimsD

/-- C2 counterexample: the code defines no InvalidScale error and does
not reject `scale <= 0`.  On a 2x2 canvas with decodable bytes, a load at
scale 0 (zero-area scaled box) returns success and mutates the pixel
buffer (byte 0 becomes the composited 1x1 image's 9; it was 0), refuting
"fails with the InvalidScale error ... neither the pixel buffer nor the
occupancy set is mutated". -/
theorem c2_counterexample :
    (load_image_from_bytes_with_scale dec22 resampleK (ImageBuffer.new 2 2 1 1) [] 0 0 0).1 =
      Except.ok () ∧
    (load_image_from_bytes_with_scale dec22 resampleK (ImageBuffer.new 2 2 1 1) [] 0 0
      0).2.data 0 = 9 ∧
    (ImageBuffer.new 2 2 1 1).data 0 = 0 := by
  have heq := @load_with_scale_eq_lt1 dec22 resampleK
    (ImageBuffer.new 2 2 1 1) [] 0 0 0 img22 (by decide) (by decide) rfl (by norm_num)
  have ht : ((ImageBuffer.new 2 2 1 1).tile_width : ℚ) = (2 : ℚ) := by
    norm_num [ImageBuffer.new]
  have ht2 : ((ImageBuffer.new 2 2 1 1).tile_height : ℚ) = (2 : ℚ) := by
    norm_num [ImageBuffer.new]
  have h0 : f32toU32 ((2 : ℚ) * 0) = 0 := by norm_num [f32toU32]
  have hres := resize_preserve_zero_box resampleK img22 (by decide) (by decide)
  rw [ht, ht2, h0, hres] at heq
  rw [heq]
  refine ⟨rfl, ?_, rfl⟩
  dsimp only
  rw [tileWrite_byte0 _ _ ⟨rfl, rfl, rfl⟩ (by decide) (by decide) (by decide) (by decide)]
  decide

/-- C2 amended: for every canvas, in-bounds (col,row) and decodable
bytes, a load with scale <= 0 does NOT fail: the zero-area scaled box is
clamped by the resize step to a 1x1 image, the load succeeds (so the
pixel buffer and occupancy ARE mutated: the cell becomes loaded).  No
InvalidScale error exists in the code. -/
theorem c2_amended_degenerate_scale_succeeds
    (decode : List Nat → Option Img) (resample : Img → Nat → Nat → Nat → Nat → RGBA)
    (c : ImageBuffer) (image_data : List Nat) (col row : Nat) (scale : ℚ) (img : Img)
    (hcol : col < c.num_cols) (hrow : row < c.num_rows)
    (hdec : decode image_data = some img) (hs : scale ≤ 0)
    (how : 1 ≤ img.width) (hoh : 1 ≤ img.height) :
    (load_image_from_bytes_with_scale decode resample c image_data col row scale).1 =
      Except.ok () ∧
    (load_image_from_bytes_with_scale decode resample c image_data col row
      scale).2.is_tile_loaded col row = true ∧
    resize_preserve_aspect_ratio resample img (f32toU32 ((c.tile_width : ℚ) * scale))
        (f32toU32 ((c.tile_height : ℚ) * scale)) =
      { width := 1, height := 1, pixel := resample img 1 1 } := by
  rw [load_with_scale_shape c image_data col row scale hcol hrow hdec]
  refine ⟨rfl, ?_, ?_⟩
  · simp [ImageBuffer.is_tile_loaded, upsertTile]
  · rw [f32toU32_nonpos hs, f32toU32_nonpos hs]
    exact resize_preserve_zero_box resample img how hoh

/-- Witness for the amended C2 at a concrete canvas and scale 0. -/
theorem c2_witness :
    (load_image_from_bytes_with_scale dec22 resampleK (ImageBuffer.new 2 2 1 1) [] 0 0 0).1 =
      Except.ok () ∧
    (load_image_from_bytes_with_scale dec22 resampleK (ImageBuffer.new 2 2 1 1) [] 0 0
      0).2.is_tile_loaded 0 0 = true ∧
    resize_preserve_aspect_ratio resampleK img22
        (f32toU32 (((ImageBuffer.new 2 2 1 1).tile_width : ℚ) * 0))
        (f32toU32 (((ImageBuffer.new 2 2 1 1).tile_height : ℚ) * 0)) =
      { width := 1, height := 1, pixel := resampleK img22 1 1 } :=
  c2_amended_degenerate_scale_succeeds dec22 resampleK (ImageBuffer.new 2 2 1 1) [] 0 0 0
    img22 (by decide) (by decide) rfl (by norm_num) (by decide) (by decide)

/-- C9 counterexample: for a 3x2 image in a 100x1 box the code truncates
`3 * (1/2)` to 1 and the external refit yields a 1x1 image, while the
claim's formula `round(ow*scale)` demands width `round(1.5) = 2` (and a
1x1 result also breaks exact 3:2 aspect preservation). -/
theorem c9_counterexample :
    (resize_preserve_aspect_ratio resampleK img32 100 1).width = 1 ∧
    (round ((3 : ℚ) * min ((100 : ℚ) / 3) ((1 : ℚ) / 2))).toNat = 2 ∧
    ¬ ((resize_preserve_aspect_ratio resampleK img32 100 1).width =
        (round ((3 : ℚ) * min ((100 : ℚ) / 3) ((1 : ℚ) / 2))).toNat) := by
  have hr : (round ((3 : ℚ) * min ((100 : ℚ) / 3) ((1 : ℚ) / 2))).toNat = 2 := by
    rw [show min ((100 : ℚ) / 3) ((1 : ℚ) / 2) = 1 / 2 by rw [min_def]; norm_num]
    norm_num [round_eq]
    try omega
  rw [resize32 resampleK, hr]
  exact ⟨rfl, rfl, by decide⟩

/-- C9 amended: the fit computes scale = min(tw/ow, th/oh) but truncates
(not rounds) to `(floor(ow*scale), floor(oh*scale))`, and the external
resizer refits within that box (rounding, at least 1px per axis); for a
positive box the result never exceeds it on either axis, and a 200x100
image in a 100x100 box yields exactly 100x50. -/
theorem c9_amended_fit_bounded (resample : Img → Nat → Nat → Nat → Nat → RGBA)
    (pix : Nat → Nat → RGBA) (ow oh tw th : Nat)
    (how : 1 ≤ ow) (hoh : 1 ≤ oh) (htw : 1 ≤ tw) (hth : 1 ≤ th)
    (htwM : tw ≤ u32MAX) (hthM : th ≤ u32MAX) :
    (resize_preserve_aspect_ratio resample ⟨ow, oh, pix⟩ tw th).width ≤ tw ∧
    (resize_preserve_aspect_ratio resample ⟨ow, oh, pix⟩ tw th).height ≤ th ∧
    resize_preserve_aspect_ratio resample ⟨200, 100, pix⟩ 100 100 =
      ⟨100, 50, resample ⟨200, 100, pix⟩ 100 50⟩ := by
  have h := resize_preserve_le_box resample ⟨ow, oh, pix⟩ tw th how hoh htw hth htwM hthM
  exact ⟨h.1, h.2, resize200 resample pix⟩

/-- Witness for the amended C9 at a concrete image and box. -/
theorem c9_witness :
    (resize_preserve_aspect_ratio resampleK ⟨8, 4, pixK⟩ 5 5).width ≤ 5 ∧
    (resize_preserve_aspect_ratio resampleK ⟨8, 4, pixK⟩ 5 5).height ≤ 5 ∧
    resize_preserve_aspect_ratio resampleK ⟨200, 100, pixK⟩ 100 100 =
      ⟨100, 50, resampleK ⟨200, 100, pixK⟩ 100 50⟩ :=
  c9_amended_fit_bounded resampleK pixK 8 4 5 5 (by decide) (by decide) (by decide)
    (by decide) (by norm_num [u32MAX]) (by norm_num [u32MAX])

end ClaimsD

section ClaimsE

/-- C1 counterexample: on a 4x4 tile, a 8x4 image at scale 1.0 resamples
to 4x2 (extent 2 <= tile extent 4), so the claimed centering would place
background (byte 255) at tile row 0 (base_dst_y = (4-2)/2 = 1); but the
byte at pixel (0,0) is the image byte 9: the `scale >= 1.0` branch uses
destination offset (0,0) and top-aligns the smaller image. -/
theorem c1_counterexample :
    (resize_preserve_aspect_ratio resampleK img84 4 4).height = 2 ∧ (2 : Nat) ≤ 4 ∧
    (load_image_from_bytes_with_scale dec84 resampleK (ImageBuffer.new 4 4 1 1) [] 0 0
      1).2.data 0 = 9 ∧
    byteOf (bgColor (ImageBuffer.new 4 4 1 1)) 0 = 255 := by
  refine ⟨by rw [resize84], by omega, ?_, rfl⟩
  rw [load_with_scale_eq_ge1 _ _ _ _ _ img84 (by decide) (by decide) rfl (by norm_num)]
  have ht : ((ImageBuffer.new 4 4 1 1).tile_width : ℚ) = (4 : ℚ) := by
    norm_num [ImageBuffer.new]
  have ht2 : ((ImageBuffer.new 4 4 1 1).tile_height : ℚ) = (4 : ℚ) := by
    norm_num [ImageBuffer.new]
  rw [ht, ht2]
  have h4 : f32toU32 ((4 : ℚ) * 1) = 4 := by norm_num [f32toU32, u32MAX]; try omega
  rw [h4, resize84]
  dsimp only
  rw [tileWrite_byte0 _ _ ⟨rfl, rfl, rfl⟩ (by decide) (by decide) (by decide) (by decide)]
  decide

/-- C1 amended: on the 2x2 canvas of 100x100 tiles, a successful load of
a 200x100 image at (0,0) with scale 1.0 writes the resampled 100x50
image TOP-aligned: rows 0..49 hold image pixels (full tile width), rows
50..99 hold the background — the `scale >= 1.0` branch always uses
destination offset (0,0) with a center source-crop.  Centering with
`base_dst = (tile_extent - image_extent)/2` holds in the `scale < 1.0`
branch, where the resampled image fits the tile on both axes. -/
theorem c1_amended_top_aligned_load
    (decode : List Nat → Option Img) (resample : Img → Nat → Nat → Nat → Nat → RGBA)
    (pix : Nat → Nat → RGBA) (image_data : List Nat)
    (hdec : decode image_data = some ⟨200, 100, pix⟩) :
    ((load_image_from_bytes_with_scale decode resample (ImageBuffer.new 100 100 2 2)
        image_data 0 0 1).1 = Except.ok () ∧
     ∀ x y b, x < 100 → y < 100 → b < 4 →
      (load_image_from_bytes_with_scale decode resample (ImageBuffer.new 100 100 2 2)
          image_data 0 0 1).2.data ((y * 200 + x) * 4 + b) =
        if y < 50 then byteOf (resample ⟨200, 100, pix⟩ 100 50 x y) b
        else byteOf ⟨255, 255, 255, 255⟩ b) ∧
    (∀ (dec2 : List Nat → Option Img) (res2 : Img → Nat → Nat → Nat → Nat → RGBA)
        (c2 : ImageBuffer) (bytes2 : List Nat) (col row : Nat) (scale : ℚ) (img2 : Img),
      Wf c2 → col < c2.num_cols → row < c2.num_rows → dec2 bytes2 = some img2 →
      1 ≤ img2.width → 1 ≤ img2.height → 1 ≤ c2.tile_width → 1 ≤ c2.tile_height →
      scale < 1 →
      (resize_preserve_aspect_ratio res2 img2 (f32toU32 ((c2.tile_width : ℚ) * scale))
          (f32toU32 ((c2.tile_height : ℚ) * scale))).width ≤ c2.tile_width ∧
      (resize_preserve_aspect_ratio res2 img2 (f32toU32 ((c2.tile_width : ℚ) * scale))
          (f32toU32 ((c2.tile_height : ℚ) * scale))).height ≤ c2.tile_height ∧
      ∀ x y b, x < c2.tile_width → y < c2.tile_height → b < 4 →
        (load_image_from_bytes_with_scale dec2 res2 c2 bytes2 col row scale).2.data
            (((row * c2.tile_height + y) * c2.width + (col * c2.tile_width + x)) * 4 + b) =
          byteOf (compositeColor
            (resize_preserve_aspect_ratio res2 img2 (f32toU32 ((c2.tile_width : ℚ) * scale))
              (f32toU32 ((c2.tile_height : ℚ) * scale))).width
            (resize_preserve_aspect_ratio res2 img2 (f32toU32 ((c2.tile_width : ℚ) * scale))
              (f32toU32 ((c2.tile_height : ℚ) * scale))).height
            (resize_preserve_aspect_ratio res2 img2 (f32toU32 ((c2.tile_width : ℚ) * scale))
              (f32toU32 ((c2.tile_height : ℚ) * scale))).pixel
            0 0
            ((c2.tile_width - (resize_preserve_aspect_ratio res2 img2
              (f32toU32 ((c2.tile_width : ℚ) * scale))
              (f32toU32 ((c2.tile_height : ℚ) * scale))).width) / 2)
            ((c2.tile_height - (resize_preserve_aspect_ratio res2 img2
              (f32toU32 ((c2.tile_width : ℚ) * scale))
              (f32toU32 ((c2.tile_height : ℚ) * scale))).height) / 2)
            (bgColor c2) x y) b) := by
  refine ⟨⟨?_, ?_⟩, ?_⟩
  · rw [load_with_scale_shape (ImageBuffer.new 100 100 2 2) image_data 0 0 1
      (by decide) (by decide) hdec]
  · intro x y b hx hy hb
    rw [load_with_scale_eq_ge1 (ImageBuffer.new 100 100 2 2) image_data 0 0 1 ⟨200, 100, pix⟩
      (by decide) (by decide) hdec (by norm_num)]
    have ht : (((ImageBuffer.new 100 100 2 2).tile_width : ℚ) * 1) = (100 : ℚ) := by
      norm_num [ImageBuffer.new]
    have ht2 : (((ImageBuffer.new 100 100 2 2).tile_height : ℚ) * 1) = (100 : ℚ) := by
      norm_num [ImageBuffer.new]
    have h100 : f32toU32 (100 : ℚ) = 100 := by norm_num [f32toU32, u32MAX]; try omega
    rw [ht, ht2, h100, resize200 resample pix]
    dsimp only
    have hin := @tileWrite_inside (ImageBuffer.new 100 100 2 2) 0 0
      (compositeColor 100 50 (resample ⟨200, 100, pix⟩ 100 50)
        ((100 - (ImageBuffer.new 100 100 2 2).tile_width) / 2)
        ((50 - (ImageBuffer.new 100 100 2 2).tile_height) / 2) 0 0
        (bgColor (ImageBuffer.new 100 100 2 2)))
      ⟨rfl, rfl, rfl⟩ (by decide) (by decide) x y b hx hy hb
    have hW : (ImageBuffer.new 100 100 2 2).width = 200 := rfl
    have hT : (ImageBuffer.new 100 100 2 2).tile_width = 100 := rfl
    have hT2 : (ImageBuffer.new 100 100 2 2).tile_height = 100 := rfl
    simp only [hW, hT, hT2] at hin ⊢
    simp only [zero_mul, zero_add] at hin ⊢
    rw [hin]
    rw [show ((100 : Nat) - 100) / 2 = 0 by omega]
    rw [compositeColor_no_offset]
    have hbg : bgColor (ImageBuffer.new 100 100 2 2) = ⟨255, 255, 255, 255⟩ := rfl
    rw [hbg]
    by_cases hy5 : y < 50
    · rw [if_pos ⟨hx, hy5⟩, if_pos hy5]
    · rw [if_neg (fun h => hy5 h.2), if_neg hy5]
  · intro dec2 res2 c2 bytes2 col row scale img2 hwf2 hcol hrow hdec2 hiw hih htw hth hscale
    have hsc : ¬ (1 ≤ scale) := not_le.mpr hscale
    have hb1 : f32toU32 ((c2.tile_width : ℚ) * scale) < c2.tile_width :=
      f32toU32_scaled_lt htw hscale
    have hb2 : f32toU32 ((c2.tile_height : ℚ) * scale) < c2.tile_height :=
      f32toU32_scaled_lt hth hscale
    have hd := resize_preserve_dims_le res2 img2 (f32toU32 ((c2.tile_width : ℚ) * scale))
      (f32toU32 ((c2.tile_height : ℚ) * scale)) hiw hih
      (f32toU32_le_u32MAX _) (f32toU32_le_u32MAX _)
    refine ⟨by omega, by omega, ?_⟩
    intro x y b hx hy hb
    rw [load_with_scale_eq_lt1 c2 bytes2 col row scale img2 hcol hrow hdec2 hsc]
    dsimp only
    exact tileWrite_inside _ hwf2 hcol hrow hx hy hb

/-- Witness for the amended C1: row 60 of the loaded tile holds the
background byte 255 (top-aligned image covers only rows 0..49). -/
theorem c1_witness :
    (load_image_from_bytes_with_scale dec200 resampleK (ImageBuffer.new 100 100 2 2) [] 0 0
      1).2.data ((60 * 200 + 0) * 4 + 0) = 255 := by
  have h := (c1_amended_top_aligned_load dec200 resampleK pixK [] rfl).1.2 0 60 0
    (by decide) (by decide) (by decide)
  rw [if_neg (by norm_num)] at h
  simpa [byteOf] using h

end ClaimsE

section ClaimsF

/-- A 2x2 image fit into a 2x2 box is returned unchanged by the resizer. -/
theorem resize22 (resample : Img → Nat → Nat → Nat → Nat → RGBA) :
    resize_preserve_aspect_ratio resample img22 2 2 = img22 := by
  have h2 : f32toU32 (2 : ℚ) = 2 := by norm_num [f32toU32, u32MAX]; try omega
  simp only [resize_preserve_aspect_ratio, img22]
  norm_num [min_def]
  rw [h2]
  simp only [imageResize]
  rw [if_pos (by norm_num)]

/-- C3 counterexample: on a 4x4 tile with a 8x4 image (resampled to 4x2,
smaller than the tile vertically), `load_image` writes the image byte 9
at pixel (0,0) (top-aligned) while `load_image_scaled_offset` with
scale 1 and offset (0,0) writes the background byte 255 there (centered):
the two calls produce different buffers. -/
theorem c3_counterexample :
    ¬ (load_image_from_bytes dec84 resampleK (ImageBuffer.new 4 4 1 1) [] 0 0 =
       load_image_from_bytes_with_scale_and_offset dec84 resampleK (ImageBuffer.new 4 4 1 1)
         [] 0 0 1 0 0) := by
  intro heq
  have ht : ((ImageBuffer.new 4 4 1 1).tile_width : ℚ) = (4 : ℚ) := by
    norm_num [ImageBuffer.new]
  have ht2 : ((ImageBuffer.new 4 4 1 1).tile_height : ℚ) = (4 : ℚ) := by
    norm_num [ImageBuffer.new]
  have h4 : f32toU32 ((4 : ℚ) * 1) = 4 := by norm_num [f32toU32, u32MAX]; try omega
  have h1 : (load_image_from_bytes dec84 resampleK (ImageBuffer.new 4 4 1 1) []
      0 0).2.data 0 = 9 := by
    show (load_image_from_bytes_with_scale dec84 resampleK (ImageBuffer.new 4 4 1 1) []
      0 0 1).2.data 0 = 9
    rw [load_with_scale_eq_ge1 _ _ _ _ _ img84 (by decide) (by decide) rfl (by norm_num)]
    rw [ht, ht2, h4, resize84]
    dsimp only
    rw [tileWrite_byte0 _ _ ⟨rfl, rfl, rfl⟩ (by decide) (by decide) (by decide) (by decide)]
    decide
  have h2 : (load_image_from_bytes_with_scale_and_offset dec84 resampleK
      (ImageBuffer.new 4 4 1 1) [] 0 0 1 0 0).2.data 0 = 255 := by
    rw [@load_with_offset_shape dec84 resampleK (ImageBuffer.new 4 4 1 1) [] 0 0 1 0 0
      (by decide) (by decide) img84 rfl]
    dsimp only
    rw [tileWrite_byte0 _ _ ⟨rfl, rfl, rfl⟩ (by decide) (by decide) (by decide) (by decide)]
    unfold withOffsetColor
    rw [ht, ht2, h4, resize84]
    decide
  rw [heq] at h1
  rw [h1] at h2
  exact absurd h2 (by decide)

/-- C3 amended: `load_image(bytes,col,row)` equals
`load_image_scaled_offset(bytes,col,row,1.0,0,0)` on every error path
(same bounds error, same decode error), and on success whenever the
resampled image is at least tile-sized on both axes (then both
center-crop the source with destination offset 0).  When the resampled
image is smaller than the tile by 2 or more pixels on an axis the
results differ (see the counterexample): `load_image` top/left-aligns
while the offset variant centers. -/
theorem c3_amended_equivalence
    (decode : List Nat → Option Img) (resample : Img → Nat → Nat → Nat → Nat → RGBA)
    (c : ImageBuffer) (image_data : List Nat) (col row : Nat) :
    ((c.num_cols ≤ col ∨ c.num_rows ≤ row) →
      load_image_from_bytes decode resample c image_data col row =
        load_image_from_bytes_with_scale_and_offset decode resample c image_data col row
          1 0 0) ∧
    (decode image_data = none → col < c.num_cols → row < c.num_rows →
      load_image_from_bytes decode resample c image_data col row =
        load_image_from_bytes_with_scale_and_offset decode resample c image_data col row
          1 0 0) ∧
    (∀ img : Img, decode image_data = some img → col < c.num_cols → row < c.num_rows →
      c.tile_width ≤ (resize_preserve_aspect_ratio resample img
          (f32toU32 ((c.tile_width : ℚ) * 1)) (f32toU32 ((c.tile_height : ℚ) * 1))).width →
      c.tile_height ≤ (resize_preserve_aspect_ratio resample img
          (f32toU32 ((c.tile_width : ℚ) * 1)) (f32toU32 ((c.tile_height : ℚ) * 1))).height →
      (resize_preserve_aspect_ratio resample img
          (f32toU32 ((c.tile_width : ℚ) * 1)) (f32toU32 ((c.tile_height : ℚ) * 1))).width ≤
        u32MAX →
      (resize_preserve_aspect_ratio resample img
          (f32toU32 ((c.tile_width : ℚ) * 1)) (f32toU32 ((c.tile_height : ℚ) * 1))).height ≤
        u32MAX →
      load_image_from_bytes decode resample c image_data col row =
        load_image_from_bytes_with_scale_and_offset decode resample c image_data col row
          1 0 0) := by
  refine ⟨?_, ?_, ?_⟩
  · intro h
    rw [show load_image_from_bytes decode resample c image_data col row =
        load_image_from_bytes_with_scale decode resample c image_data col row 1 from rfl]
    rw [load_with_scale_oob c image_data col row 1 h,
      load_with_offset_oob c image_data col row 1 0 0 h]
  · intro hdec hcol hrow
    rw [show load_image_from_bytes decode resample c image_data col row =
        load_image_from_bytes_with_scale decode resample c image_data col row 1 from rfl]
    rw [load_with_scale_decode_fail c image_data col row 1 hcol hrow hdec]
    unfold load_image_from_bytes_with_scale_and_offset
    rw [if_neg (by omega), hdec]
  · intro img hdec hcol hrow hW hH hWM hHM
    rw [show load_image_from_bytes decode resample c image_data col row =
        load_image_from_bytes_with_scale decode resample c image_data col row 1 from rfl]
    rw [load_with_scale_eq_ge1 c image_data col row 1 img hcol hrow hdec le_rfl]
    rw [load_with_offset_shape c image_data col row 1 0 0 hcol hrow hdec]
    have hcolor : withOffsetColor resample c img 1 0 0 =
        compositeColor
          (resize_preserve_aspect_ratio resample img (f32toU32 ((c.tile_width : ℚ) * 1))
            (f32toU32 ((c.tile_height : ℚ) * 1))).width
          (resize_preserve_aspect_ratio resample img (f32toU32 ((c.tile_width : ℚ) * 1))
            (f32toU32 ((c.tile_height : ℚ) * 1))).height
          (resize_preserve_aspect_ratio resample img (f32toU32 ((c.tile_width : ℚ) * 1))
            (f32toU32 ((c.tile_height : ℚ) * 1))).pixel
          (((resize_preserve_aspect_ratio resample img (f32toU32 ((c.tile_width : ℚ) * 1))
            (f32toU32 ((c.tile_height : ℚ) * 1))).width - c.tile_width) / 2)
          (((resize_preserve_aspect_ratio resample img (f32toU32 ((c.tile_width : ℚ) * 1))
            (f32toU32 ((c.tile_height : ℚ) * 1))).height - c.tile_height) / 2)
          0 0 (bgColor c) := by
      simp only [withOffsetColor]
      have hbx : (if (resize_preserve_aspect_ratio resample img
          (f32toU32 ((c.tile_width : ℚ) * 1)) (f32toU32 ((c.tile_height : ℚ) * 1))).width ≤
            c.tile_width then
          (c.tile_width - (resize_preserve_aspect_ratio resample img
            (f32toU32 ((c.tile_width : ℚ) * 1)) (f32toU32 ((c.tile_height : ℚ) * 1))).width) / 2
        else 0) = 0 := by
        split <;> omega
      have hby : (if (resize_preserve_aspect_ratio resample img
          (f32toU32 ((c.tile_width : ℚ) * 1)) (f32toU32 ((c.tile_height : ℚ) * 1))).height ≤
            c.tile_height then
          (c.tile_height - (resize_preserve_aspect_ratio resample img
            (f32toU32 ((c.tile_width : ℚ) * 1)) (f32toU32 ((c.tile_height : ℚ) * 1))).height) / 2
        else 0) = 0 := by
        split <;> omega
      rw [hbx, hby]
      rw [show (((0 : Nat) : Int) + 0) = (0 : Int) by norm_num]
      rw [max_eq_left (neg_nonpos.mpr (Int.natCast_nonneg _)),
        max_eq_left (neg_nonpos.mpr (Int.natCast_nonneg _)),
        min_eq_left (Int.natCast_nonneg _), min_eq_left (Int.natCast_nonneg _)]
      rw [show i32toU32 0 = 0 from rfl]
      have hsx : ∀ (aw tw : Nat), tw ≤ aw → aw ≤ u32MAX →
          (if tw < aw then
            i32toU32 (min (max ((((aw - tw) / 2 : Nat) : Int) - 0) 0) (((aw - tw : Nat) : Int)))
          else 0) = (aw - tw) / 2 := by
        intro aw tw hle hM
        have hu : u32MAX = 4294967295 := rfl
        by_cases hlt : tw < aw
        · rw [if_pos hlt, sub_zero,
            max_eq_left (Int.natCast_nonneg _),
            min_eq_left (by exact_mod_cast Nat.div_le_self _ _)]
          exact i32toU32_natCast (by omega)
        · rw [if_neg hlt]
          omega
      rw [hsx _ _ hW hWM, hsx _ _ hH hHM]
    rw [hcolor]

/-- Witness for the amended C3: a 2x2 image in a 2x2 tile (resampled
size equals the tile), where both entry points agree exactly. -/
theorem c3_witness :
    load_image_from_bytes dec22 resampleK (ImageBuffer.new 2 2 1 1) [] 0 0 =
      load_image_from_bytes_with_scale_and_offset dec22 resampleK (ImageBuffer.new 2 2 1 1)
        [] 0 0 1 0 0 := by
  have hcast : (((ImageBuffer.new 2 2 1 1).tile_width : ℚ) * 1) = (2 : ℚ) := by
    norm_num [ImageBuffer.new]
  have hcast2 : (((ImageBuffer.new 2 2 1 1).tile_height : ℚ) * 1) = (2 : ℚ) := by
    norm_num [ImageBuffer.new]
  have h2 : f32toU32 (2 : ℚ) = 2 := by norm_num [f32toU32, u32MAX]; try omega
  have hres : resize_preserve_aspect_ratio resampleK img22
      (f32toU32 (((ImageBuffer.new 2 2 1 1).tile_width : ℚ) * 1))
      (f32toU32 (((ImageBuffer.new 2 2 1 1).tile_height : ℚ) * 1)) = img22 := by
    rw [hcast, hcast2, h2]
    exact resize22 resampleK
  exact (c3_amended_equivalence dec22 resampleK (ImageBuffer.new 2 2 1 1) [] 0 0).2.2 img22
    rfl (by decide) (by decide) (by rw [hres]; decide) (by rw [hres]; decide)
    (by rw [hres]; norm_num [img22, u32MAX]) (by rw [hres]; norm_num [img22, u32MAX])

end ClaimsF
